import Mathlib

/-!
A shallow embedding of the public API of libESMTP (`smtp-api.c`) and proofs
about it.

Modelling conventions:

* C heap strings are modelled by an explicit `Heap`: a fresh-address counter
  plus the list of live blocks (address, contents).  A `char *` field that may
  own a string is an `Option Addr`; `free` removes the block from the heap but
  (exactly as in C) does not touch any field that still stores the address.
* `malloc`/`strdup` failure is injected through explicit `Bool` oracles: an
  argument `ok : Bool` of a function decides whether the corresponding
  allocation inside it succeeds.
* Machine integers (`long` for DELIVERBY times, ports) are modelled as `Int`;
  the values involved are far below any overflow boundary.
* The configuration is compiled with `HAVE_GETHOSTNAME` defined and
  `HAVE_GETADDRINFO` undefined, i.e. the branch of `smtp_set_server` that
  resolves a symbolic service name through the service database and stores a
  numeric port.  The service database (`getservbyname`, already converted to
  host byte order as `ntohs` does) is a parameter `servdb`.
* `SMTPAPI_CHECK_ARGS` and the error cells live in headers that are not part
  of this file set.  Modelled from the spec: a violated argument check sets
  the process-wide last error to InvalidArgument (`SMTP_ERR_INVAL`) and
  returns the supplied default; allocation failure sets OutOfMemory
  (`set_errno (ENOMEM)`, rendered `SMTP_ERR_NOMEM`).  Each function
  therefore returns, besides its C result, an `Option SmtpError` that is
  `some e` exactly when the C code would have set the last error to `e`.
* `APPEND_LIST` lives in `libesmtp-private.h`.  Modelled from the spec:
  messages and recipients form ordered, append-only lists, so it is
  modelled as appending at the tail of a Lean list.
* Callback function pointers are external code; only their presence matters
  to this API layer, so they are modelled as `Option Unit`.
-/

set_option linter.unusedVariables false

namespace LibESMTP

/-- Heap addresses of C string blocks. -/
abbrev Addr := Nat

/-- The heap of live C string blocks: a fresh-address counter and the live
blocks with their contents. -/
structure Heap where
  next : Addr
  blocks : List (Addr × String)
deriving DecidableEq

/-- The empty heap. -/
def Heap.empty : Heap := ⟨0, []⟩

/-- The addresses of the live blocks. -/
def Heap.addrs (h : Heap) : List Addr := h.blocks.map Prod.fst

/-- Allocate a fresh block holding `s`; returns its address. -/
def Heap.alloc (h : Heap) (s : String) : Addr × Heap :=
  (h.next, ⟨h.next + 1, h.blocks ++ [(h.next, s)]⟩)

/-- The C `free`: the block at `a` stops being live.  Nothing is done to
fields that still store `a`. -/
def Heap.free (h : Heap) (a : Addr) : Heap :=
  ⟨h.next, h.blocks.filter (fun p => p.1 != a)⟩

/-- Overwrite the contents of the block at `a` (used for the in-place
terminator write of `smtp_set_server`). -/
def Heap.write (h : Heap) (a : Addr) (s : String) : Heap :=
  ⟨h.next, h.blocks.map (fun p => if p.1 = a then (a, s) else p)⟩

/-- Contents of the block at `a`, if live. -/
def Heap.lookup (h : Heap) (a : Addr) : Option String :=
  (h.blocks.find? (fun p => p.1 == a)).map Prod.snd

/-- The C `strdup` with an explicit success oracle `ok`. -/
def strdup (ok : Bool) (h : Heap) (s : String) : Option Addr × Heap :=
  if ok then
    let (a, h1) := h.alloc s
    (some a, h1)
  else (none, h)

/-- The two values of the process-wide last-error cell that this layer can
set: `set_errno (ENOMEM)` (OutOfMemory) and `set_error (SMTP_ERR_INVAL)`
(InvalidArgument). -/
inductive SmtpError where
  | SMTP_ERR_NOMEM
  | SMTP_ERR_INVAL
deriving DecidableEq

/-- The DSN RET enumeration of `libesmtp.h`. -/
inductive ret_flags where
  | Ret_NOTSET
  | Ret_FULL
  | Ret_HDRS
deriving DecidableEq

/-- The DSN NOTIFY flags are an OR-able bit set in C; only comparison against
`Notify_NOTSET = 0` matters to this layer. -/
abbrev notify_flags := Nat

/-- The unset value of the NOTIFY flags. -/
def Notify_NOTSET : notify_flags := 0

/-- The 8BITMIME body enumeration of `libesmtp.h`. -/
inductive e8bitmime_body where
  | E8bitmime_NOTSET
  | E8bitmime_7BIT
  | E8bitmime_8BITMIME
deriving DecidableEq

/-- The DELIVERBY mode enumeration of `libesmtp.h`. -/
inductive by_mode where
  | By_NOTSET
  | By_NOTIFY
  | By_RETURN
deriving DecidableEq

/-- Extension requirement bits (`libesmtp-private.h` is not among the given
files; modelled from the spec as distinct capability bits). -/
def EXT_DSN : Nat := 1

/-- The 8BITMIME requirement bit. -/
def EXT_8BITMIME : Nat := 2

/-- A status record: outcome code plus text.  Written only by the external
protocol engine; this layer only resets it. -/
structure smtp_status where
  code : Int := 0
  text : String := ""
deriving DecidableEq

/-- Modelled from the spec: `reset_status` returns a status record to the
unset sentinel (zero code, empty text). -/
def reset_status (st : smtp_status) : smtp_status := {}

/-- One envelope recipient.  `id` is a ghost creation stamp (not present in
the C struct) used to speak about entity identity; all other fields mirror
`struct smtp_recipient`.  The non-owning back pointer to the message is not
represented; the session state a recipient-level operation touches is passed
explicitly. -/
structure smtp_recipient where
  id : Nat := 0
  mailbox : Option Addr := none
  status : smtp_status := {}
  complete : Bool := false
  dsn_notify : notify_flags := Notify_NOTSET
  dsn_addrtype : Option Addr := none
  dsn_orcpt : Option Addr := none
deriving DecidableEq

/-- One message.  `id` is a ghost creation stamp; the other fields mirror
`struct smtp_message` (the callback context argument and the header table,
which belong to excluded components, are not represented). -/
structure smtp_message where
  id : Nat := 0
  reverse_path_mailbox : Option Addr := none
  reverse_path_status : smtp_status := {}
  message_status : smtp_status := {}
  recipients : List smtp_recipient := []
  dsn_ret : ret_flags := .Ret_NOTSET
  dsn_envid : Option Addr := none
  size_estimate : Nat := 0
  e8bitmime : e8bitmime_body := .E8bitmime_NOTSET
  by_time : Int := 0
  by_mode : by_mode := .By_NOTSET
  by_trace : Bool := false
  cb : Option Unit := none
deriving DecidableEq

/-- The session store, mirroring `struct smtp_session` (auth mechanisms,
ETRN nodes and the message source belong to excluded components). -/
structure smtp_session where
  host : Option Addr := none
  port : Int := 0
  localhost : Option Addr := none
  messages : List smtp_message := []
  required_extensions : Nat := 0
  event_cb : Option Unit := none
  monitor_cb : Option Unit := none
  monitor_cb_headers : Bool := false
  mta_status : smtp_status := {}
deriving DecidableEq

/-- The `smtp_create_session` factory: a zero-initialised session, or a null
pointer plus OutOfMemory when `malloc` fails. -/
def smtp_create_session (ok : Bool) : Option smtp_session × Option SmtpError :=
  if ok then (some {}, none) else (none, some .SMTP_ERR_NOMEM)

/-- Split at the first `':'`, as `strchr` plus the in-place `'\0'` write do:
the part before the colon and, when a colon exists, the rest after it. -/
def splitColon : List Char → List Char × Option (List Char)
  | [] => ([], none)
  | c :: cs =>
    if c = ':' then ([], some cs)
    else
      let (hd, tl) := splitColon cs
      (c :: hd, tl)

/-- The C `strtol (s, NULL, 10)` as used by `smtp_set_server`: the call is
guarded by `isdigit` on the first character, so only a leading run of
decimal digits is ever parsed. -/
def strtol10 (s : List Char) : Int :=
  ((s.takeWhile Char.isDigit).foldl (fun n c => n * 10 + (c.toNat - 48)) 0 : Nat)

/-- Whether `isdigit (*service)` holds: the first character (or the
terminating NUL for an empty service part, which is not a digit). -/
def headIsDigit (s : List Char) : Bool :=
  match s with
  | [] => false
  | c :: _ => c.isDigit

/-- `smtp_set_server` (configuration without `HAVE_GETADDRINFO`): duplicate
`hostport`, split it at the first `':'`, resolve the service part to a
numeric port — directly when it starts with a digit, through the service
database `servdb` (`getservbyname`, host byte order) otherwise — defaulting
to 587, and store the host string.  An unresolvable service name frees the
copy and fails with InvalidArgument. -/
def smtp_set_server (ok : Bool) (servdb : String → Option Nat) (h : Heap)
    (session : Option smtp_session) (hostport : Option String) :
    Int × Option SmtpError × Heap × Option smtp_session :=
  match session, hostport with
  | some sess, some hp =>
    match strdup ok h hp with
    | (none, h1) => (0, some .SMTP_ERR_NOMEM, h1, some sess)
    | (some host, h1) =>
      let (hostPart, service) := splitColon hp.data
      let h2 := h1.write host (String.mk hostPart)
      match service with
      | none => (1, none, h2, some { sess with port := 587, host := some host })
      | some sv =>
        if headIsDigit sv then
          (1, none, h2, some { sess with port := strtol10 sv, host := some host })
        else
          match servdb (String.mk sv) with
          | some p => (1, none, h2, some { sess with port := (p : Int), host := some host })
          | none => (0, some .SMTP_ERR_INVAL, h2.free host, some sess)
  | _, _ => (0, some .SMTP_ERR_INVAL, h, session)

/-- `smtp_set_hostname` (configuration with `HAVE_GETHOSTNAME`, so a null
hostname is accepted and restores the system-detected name): any previous
override is freed first, then the new name is duplicated. -/
def smtp_set_hostname (ok : Bool) (h : Heap) (session : Option smtp_session)
    (hostname : Option String) :
    Int × Option SmtpError × Heap × Option smtp_session :=
  match session with
  | none => (0, some .SMTP_ERR_INVAL, h, none)
  | some sess =>
    let h1 := match sess.localhost with
      | some a => h.free a
      | none => h
    match hostname with
    | none => (1, none, h1, some { sess with localhost := none })
    | some name =>
      match strdup ok h1 name with
      | (none, h2) => (0, some .SMTP_ERR_NOMEM, h2, some { sess with localhost := none })
      | (some a, h2) => (1, none, h2, some { sess with localhost := some a })

/-- `smtp_add_message`: append a zero-initialised message to the session's
ordered list.  `gid` is the ghost creation stamp given to the new message. -/
def smtp_add_message (ok : Bool) (gid : Nat) (session : Option smtp_session) :
    Option smtp_message × Option SmtpError × Option smtp_session :=
  match session with
  | none => (none, some .SMTP_ERR_INVAL, none)
  | some sess =>
    if ok then
      let message : smtp_message := { id := gid }
      (some message, none, some { sess with messages := sess.messages ++ [message] })
    else (none, some .SMTP_ERR_NOMEM, some sess)

/-- Outcome of an enumeration call: the C `int` result together with the
error cell and the final visitor state, or an undefined-behaviour marker for
a dereferenced null callback pointer. -/
inductive EnumRes (σ : Type) where
  | res (ret : Int) (err : Option SmtpError) (acc : σ)
  | undef
deriving DecidableEq

/-- `smtp_enumerate_messages`: checks both the session and the callback,
then invokes the callback once per message, walking the list from its
head. -/
def smtp_enumerate_messages {σ : Type} (session : Option smtp_session)
    (cb : Option (smtp_message → σ → σ)) (arg : σ) : EnumRes σ :=
  match session, cb with
  | some sess, some f => .res 1 none (sess.messages.foldl (fun a m => f m a) arg)
  | _, _ => .res 0 (some .SMTP_ERR_INVAL) arg

/-- `smtp_add_recipient`: mailbox is mandatory; the recipient struct is
allocated (`okm`), its mailbox duplicated (`oks`); on duplication failure
the partially constructed recipient is released before returning
OutOfMemory, otherwise it is appended to the message's ordered list. -/
def smtp_add_recipient (okm oks : Bool) (gid : Nat) (h : Heap)
    (message : Option smtp_message) (mailbox : Option String) :
    Option smtp_recipient × Option SmtpError × Heap × Option smtp_message :=
  match message, mailbox with
  | some m, some mbx =>
    if okm then
      match strdup oks h mbx with
      | (none, h1) => (none, some .SMTP_ERR_NOMEM, h1, some m)
      | (some a, h1) =>
        let recipient : smtp_recipient := { id := gid, mailbox := some a }
        (some recipient, none, h1, some { m with recipients := m.recipients ++ [recipient] })
    else (none, some .SMTP_ERR_NOMEM, h, message)
  | _, _ => (none, some .SMTP_ERR_INVAL, h, message)

/-- `smtp_enumerate_recipients`: only the message pointer is checked; the
callback is invoked unconditionally for each recipient (with the recipient's
mailbox pointer), so a null callback is dereferenced as soon as the list is
non-empty. -/
def smtp_enumerate_recipients {σ : Type} (message : Option smtp_message)
    (cb : Option (smtp_recipient → Option Addr → σ → σ)) (arg : σ) : EnumRes σ :=
  match message with
  | none => .res 0 (some .SMTP_ERR_INVAL) arg
  | some m =>
    match cb with
    | some f => .res 1 none (m.recipients.foldl (fun a r => f r r.mailbox a) arg)
    | none => (if m.recipients = [] then .res 1 none arg else .undef)

/-- `smtp_set_reverse_path`: free any previous reverse-path mailbox; a null
mailbox stores the empty sender, otherwise the string is duplicated. -/
def smtp_set_reverse_path (ok : Bool) (h : Heap) (message : Option smtp_message)
    (mailbox : Option String) :
    Int × Option SmtpError × Heap × Option smtp_message :=
  match message with
  | none => (0, some .SMTP_ERR_INVAL, h, none)
  | some m =>
    let h1 := match m.reverse_path_mailbox with
      | some a => h.free a
      | none => h
    match mailbox with
    | none => (1, none, h1, some { m with reverse_path_mailbox := none })
    | some s =>
      match strdup ok h1 s with
      | (none, h2) => (0, some .SMTP_ERR_NOMEM, h2, some { m with reverse_path_mailbox := none })
      | (some a, h2) => (1, none, h2, some { m with reverse_path_mailbox := some a })

/-- `smtp_message_reset_status`: clear both the reverse-path and the
transfer status records. -/
def smtp_message_reset_status (message : Option smtp_message) :
    Int × Option SmtpError × Option smtp_message :=
  match message with
  | none => (0, some .SMTP_ERR_INVAL, none)
  | some m =>
    (1, none, some { m with reverse_path_status := reset_status m.reverse_path_status,
                            message_status := reset_status m.message_status })

/-- `smtp_recipient_reset_status`: clear the status record and the
completion flag together. -/
def smtp_recipient_reset_status (recipient : Option smtp_recipient) :
    Int × Option SmtpError × Option smtp_recipient :=
  match recipient with
  | none => (0, some .SMTP_ERR_INVAL, none)
  | some r =>
    (1, none, some { r with status := reset_status r.status, complete := false })

/-- `smtp_dsn_set_ret`: store the RET mode and, for a non-default value, OR
the DSN bit into the owning session's requirement set (passed and returned
as `ext`). -/
def smtp_dsn_set_ret (ext : Nat) (message : Option smtp_message) (flags : ret_flags) :
    Int × Option SmtpError × Nat × Option smtp_message :=
  match message with
  | none => (0, some .SMTP_ERR_INVAL, ext, none)
  | some m =>
    let m1 := { m with dsn_ret := flags }
    if flags ≠ .Ret_NOTSET then (1, none, ext ||| EXT_DSN, some m1)
    else (1, none, ext, some m1)

/-- Outcome of an operation that may run into undefined behaviour
(`strdup` applied to a null pointer). -/
inductive ApiRes (α : Type) where
  | out (ret : Int) (err : Option SmtpError) (st : α)
  | undef
deriving DecidableEq

/-- `smtp_dsn_set_envid`: no validation of `envid` is performed — `strdup`
is applied to it unconditionally, so a null `envid` is undefined behaviour;
any previously stored ENVID is overwritten without being freed.  On success
the DSN bit is ORed into the session's requirement set. -/
def smtp_dsn_set_envid (ok : Bool) (h : Heap) (ext : Nat)
    (message : Option smtp_message) (envid : Option String) :
    ApiRes (Heap × Nat × Option smtp_message) :=
  match message with
  | none => .out 0 (some .SMTP_ERR_INVAL) (h, ext, none)
  | some m =>
    match envid with
    | none => .undef
    | some s =>
      match strdup ok h s with
      | (none, h1) => .out 0 (some .SMTP_ERR_NOMEM) (h1, ext, some { m with dsn_envid := none })
      | (some a, h1) =>
        .out 1 none (h1, ext ||| EXT_DSN, some { m with dsn_envid := some a })

/-- `smtp_dsn_set_notify`: store the NOTIFY flags and, for a non-default
value, OR the DSN bit into the session's requirement set. -/
def smtp_dsn_set_notify (ext : Nat) (recipient : Option smtp_recipient)
    (flags : notify_flags) :
    Int × Option SmtpError × Nat × Option smtp_recipient :=
  match recipient with
  | none => (0, some .SMTP_ERR_INVAL, ext, none)
  | some r =>
    let r1 := { r with dsn_notify := flags }
    if flags ≠ Notify_NOTSET then (1, none, ext ||| EXT_DSN, some r1)
    else (1, none, ext, some r1)

/-- `smtp_dsn_set_orcpt`: duplicate the address type (oracle `ok1`), then
the address (oracle `ok2`).  When the second duplication fails the first
string is freed — but the `dsn_addrtype` field is not reset, exactly as in
the C code.  On success the DSN bit is ORed into the session's requirement
set.  A null argument reaches `strdup` unchecked (undefined behaviour). -/
def smtp_dsn_set_orcpt (ok1 ok2 : Bool) (h : Heap) (ext : Nat)
    (recipient : Option smtp_recipient) (address_type address : Option String) :
    ApiRes (Heap × Nat × Option smtp_recipient) :=
  match recipient with
  | none => .out 0 (some .SMTP_ERR_INVAL) (h, ext, none)
  | some r =>
    match address_type with
    | none => .undef
    | some atype =>
      match strdup ok1 h atype with
      | (none, h1) =>
        .out 0 (some .SMTP_ERR_NOMEM) (h1, ext, some { r with dsn_addrtype := none })
      | (some a1, h1) =>
        let r1 := { r with dsn_addrtype := some a1 }
        match address with
        | none => .undef
        | some ad =>
          match strdup ok2 h1 ad with
          | (none, h2) =>
            .out 0 (some .SMTP_ERR_NOMEM) (h2.free a1, ext, some { r1 with dsn_orcpt := none })
          | (some a2, h2) =>
            .out 1 none (h2, ext ||| EXT_DSN, some { r1 with dsn_orcpt := some a2 })

/-- `smtp_size_set_estimate`: store the size estimate.  Note: nothing is
ORed into the session's requirement set. -/
def smtp_size_set_estimate (message : Option smtp_message) (size : Nat) :
    Int × Option SmtpError × Option smtp_message :=
  match message with
  | none => (0, some .SMTP_ERR_INVAL, none)
  | some m => (1, none, some { m with size_estimate := size })

/-- `smtp_8bitmime_set_body`: store the body mode and, for a non-default
value, OR the 8BITMIME bit into the session's requirement set. -/
def smtp_8bitmime_set_body (ext : Nat) (message : Option smtp_message)
    (body : e8bitmime_body) :
    Int × Option SmtpError × Nat × Option smtp_message :=
  match message with
  | none => (0, some .SMTP_ERR_INVAL, ext, none)
  | some m =>
    let m1 := { m with e8bitmime := body }
    if body ≠ .E8bitmime_NOTSET then (1, none, ext ||| EXT_8BITMIME, some m1)
    else (1, none, ext, some m1)

/-- `smtp_deliverby_set_mode`: one validation gate — the time must lie in
[-999999999, +999999999] and RETURN mode requires a strictly positive time —
then the three values are stored (`!!trace` normalises the trace flag, which
the `Bool` model renders as the identity).  Note: nothing is ORed into the
session's requirement set. -/
def smtp_deliverby_set_mode (message : Option smtp_message) (time : Int)
    (mode : by_mode) (trace : Bool) :
    Int × Option SmtpError × Option smtp_message :=
  match message with
  | none => (0, some .SMTP_ERR_INVAL, none)
  | some m =>
    if ¬(-999999999 ≤ time ∧ time ≤ 999999999) then (0, some .SMTP_ERR_INVAL, some m)
    else if mode = .By_RETURN ∧ time ≤ 0 then (0, some .SMTP_ERR_INVAL, some m)
    else (1, none, some { m with by_time := time, by_mode := mode, by_trace := trace })

/-- `smtp_set_messagecb`: both the message and the callback are mandatory. -/
def smtp_set_messagecb (message : Option smtp_message) (cb : Option Unit) :
    Int × Option SmtpError × Option smtp_message :=
  match message, cb with
  | some m, some c => (1, none, some { m with cb := some c })
  | _, _ => (0, some .SMTP_ERR_INVAL, message)

/-- `smtp_set_eventcb`: only the session is checked; the callback is stored
as given. -/
def smtp_set_eventcb (session : Option smtp_session) (cb : Option Unit) :
    Int × Option SmtpError × Option smtp_session :=
  match session with
  | none => (0, some .SMTP_ERR_INVAL, none)
  | some sess => (1, none, some { sess with event_cb := cb })

/-- `smtp_set_monitorcb`: only the session is checked; the callback and the
header-trace flag are stored as given. -/
def smtp_set_monitorcb (session : Option smtp_session) (cb : Option Unit)
    (headers : Bool) :
    Int × Option SmtpError × Option smtp_session :=
  match session with
  | none => (0, some .SMTP_ERR_INVAL, none)
  | some sess => (1, none, some { sess with monitor_cb := cb, monitor_cb_headers := headers })

/-- `smtp_start_session` (configuration with `HAVE_GETHOSTNAME`): the
session and its host must be set and every message must carry a transfer
callback; only then is the completed graph handed to the external engine
`do_session`, whose result is returned unchanged. -/
def smtp_start_session (do_session : smtp_session → Int)
    (session : Option smtp_session) : Int × Option SmtpError :=
  match session with
  | none => (0, some .SMTP_ERR_INVAL)
  | some sess =>
    if sess.host = none then (0, some .SMTP_ERR_INVAL)
    else if sess.messages.any (fun m => m.cb = none) then (0, some .SMTP_ERR_INVAL)
    else (do_session sess, none)

/-- One deallocation event of `smtp_destroy_session`: a string block free, a
recipient struct free, a message struct free, or the session struct free.
Struct frees carry the ghost creation stamp of the entity. -/
inductive Evt where
  | freeStr (a : Addr)
  | freeRecipient (id : Nat)
  | freeMessage (id : Nat)
  | freeSession
deriving DecidableEq

/-- The C `free (p)` for an optional string pointer: a free event when the
pointer is non-null, nothing for `free (NULL)`.  Conditional frees
(`if (p != NULL) free (p)`) have the same observable effect. -/
def optFree : Option Addr → List Evt
  | some a => [.freeStr a]
  | none => []

/-- The per-recipient part of `smtp_destroy_session`: reset the status, free
the mailbox, the DSN address type and original recipient (each only if set),
then the recipient struct itself. -/
def recipientTrace (r : smtp_recipient) : List Evt :=
  optFree r.mailbox ++ optFree r.dsn_addrtype ++ optFree r.dsn_orcpt ++ [.freeRecipient r.id]

/-- The per-message part of `smtp_destroy_session`: free the reverse-path
mailbox, all recipients, the header table (an excluded component, no event),
the DSN ENVID, then the message struct itself. -/
def messageTrace (m : smtp_message) : List Evt :=
  optFree m.reverse_path_mailbox
    ++ (m.recipients.map recipientTrace).flatten
    ++ optFree m.dsn_envid
    ++ [.freeMessage m.id]

/-- `smtp_destroy_session` as the ordered list of its deallocation events:
reset the aggregate status and tear down the excluded components (auth
mechanisms, message source — no events), free the host and localhost
strings, tear down every message, and finally free the session struct. -/
def smtp_destroy_session (s : smtp_session) : List Evt :=
  optFree s.host ++ optFree s.localhost
    ++ (s.messages.map messageTrace).flatten
    ++ [.freeSession]

/-- The string addresses a recipient owns, in the order its destructor part
frees them. -/
def recipientOwned (r : smtp_recipient) : List Addr :=
  r.mailbox.toList ++ r.dsn_addrtype.toList ++ r.dsn_orcpt.toList

/-- The string addresses a message owns, in destructor order. -/
def messageOwned (m : smtp_message) : List Addr :=
  m.reverse_path_mailbox.toList
    ++ (m.recipients.map recipientOwned).flatten
    ++ m.dsn_envid.toList

/-- The string addresses a session transitively owns, in destructor order. -/
def sessionOwned (s : smtp_session) : List Addr :=
  s.host.toList ++ s.localhost.toList ++ (s.messages.map messageOwned).flatten

/-- The addresses of the string-free events of a trace, in order. -/
def strFrees : List Evt → List Addr
  | [] => []
  | .freeStr a :: es => a :: strFrees es
  | _ :: es => strFrees es

/-- The ghost stamps of the recipient-struct-free events of a trace. -/
def recipFrees : List Evt → List Nat
  | [] => []
  | .freeRecipient i :: es => i :: recipFrees es
  | _ :: es => recipFrees es

/-- The ghost stamps of the message-struct-free events of a trace. -/
def msgFrees : List Evt → List Nat
  | [] => []
  | .freeMessage i :: es => i :: msgFrees es
  | _ :: es => msgFrees es

/-!  The public-operation state machine.  A `State` is the heap together
with one session built through the public API; `fresh` is the ghost stamp
counter, and `msgLog`/`rcptLog` are ghost journals recording the creation
order of messages and of recipients (tagged with the owning message's
stamp). -/

/-- Program state: the heap, the session under construction, and ghost
creation journals. -/
structure State where
  heap : Heap := Heap.empty
  session : smtp_session := {}
  fresh : Nat := 0
  msgLog : List Nat := []
  rcptLog : List (Nat × Nat) := []
deriving DecidableEq

/-- The state right after `smtp_create_session`. -/
def initState : State := {}

/-- The message a pointer argument at index `mi` designates, if any. -/
def State.getMsg (st : State) (mi : Nat) : Option smtp_message :=
  st.session.messages.get? mi

/-- Store back an updated message at index `mi`. -/
def State.putMsg (st : State) (mi : Nat) (m : smtp_message) : State :=
  { st with session := { st.session with messages := st.session.messages.set mi m } }

/-- The recipient at index `ri` of the message at index `mi`, if any. -/
def State.getRcpt (st : State) (mi ri : Nat) : Option smtp_recipient :=
  (st.getMsg mi).bind (fun m => m.recipients.get? ri)

/-- Store back an updated recipient. -/
def State.putRcpt (st : State) (mi ri : Nat) (r : smtp_recipient) : State :=
  match st.getMsg mi with
  | some m => st.putMsg mi { m with recipients := m.recipients.set ri r }
  | none => st

/-- Update the session's requirement set. -/
def State.putExt (st : State) (e : Nat) : State :=
  { st with session := { st.session with required_extensions := e } }

/-- One public operation on a session under construction.  Message and
recipient pointer arguments are rendered as indices into the respective
lists (an out-of-range index stands for no call).  The `Bool` fields are
the allocation oracles of the corresponding calls. -/
inductive Op where
  | setServer (hostport : String) (ok : Bool)
  | setHostname (hostname : Option String) (ok : Bool)
  | addMessage (ok : Bool)
  | setReversePath (mi : Nat) (mailbox : Option String) (ok : Bool)
  | addRecipient (mi : Nat) (mailbox : Option String) (okm oks : Bool)
  | messageResetStatus (mi : Nat)
  | recipientResetStatus (mi ri : Nat)
  | dsnSetRet (mi : Nat) (flags : ret_flags)
  | dsnSetEnvid (mi : Nat) (envid : String) (ok : Bool)
  | dsnSetNotify (mi ri : Nat) (flags : notify_flags)
  | dsnSetOrcpt (mi ri : Nat) (atype addr : String) (ok1 ok2 : Bool)
  | sizeSetEstimate (mi : Nat) (size : Nat)
  | e8SetBody (mi : Nat) (body : e8bitmime_body)
  | deliverbySetMode (mi : Nat) (time : Int) (mode : by_mode) (trace : Bool)
  | setMessagecb (mi : Nat) (cb : Option Unit)
  | setEventcb (cb : Option Unit)
  | setMonitorcb (cb : Option Unit) (headers : Bool)
deriving DecidableEq

/-- Whether every allocation oracle of the operation is set to success. -/
def Op.allocsOk : Op → Bool
  | .setServer _ ok => ok
  | .setHostname _ ok => ok
  | .addMessage ok => ok
  | .setReversePath _ _ ok => ok
  | .addRecipient _ _ okm oks => okm && oks
  | .dsnSetEnvid _ _ ok => ok
  | .dsnSetOrcpt _ _ _ _ ok1 ok2 => ok1 && ok2
  | _ => true

/-- Apply one public operation, threading the heap, the session and the
ghost journals.  `servdb` is the platform service database. -/
def step (servdb : String → Option Nat) (op : Op) (st : State) : State :=
  match op with
  | .setServer hp ok =>
    let (_, _, h1, s1) := smtp_set_server ok servdb st.heap (some st.session) (some hp)
    { st with heap := h1, session := s1.getD st.session }
  | .setHostname hn ok =>
    let (_, _, h1, s1) := smtp_set_hostname ok st.heap (some st.session) hn
    { st with heap := h1, session := s1.getD st.session }
  | .addMessage ok =>
    match smtp_add_message ok st.fresh (some st.session) with
    | (some _, _, some s1) =>
      { st with session := s1, fresh := st.fresh + 1, msgLog := st.msgLog ++ [st.fresh] }
    | (_, _, s1) => { st with session := s1.getD st.session }
  | .setReversePath mi mbx ok =>
    match st.getMsg mi with
    | none => st
    | some m =>
      let (_, _, h1, m1) := smtp_set_reverse_path ok st.heap (some m) mbx
      { st.putMsg mi (m1.getD m) with heap := h1 }
  | .addRecipient mi mbx okm oks =>
    match st.getMsg mi with
    | none => st
    | some m =>
      match smtp_add_recipient okm oks st.fresh st.heap (some m) mbx with
      | (some _, _, h1, some m1) =>
        { st.putMsg mi m1 with heap := h1, fresh := st.fresh + 1,
                               rcptLog := st.rcptLog ++ [(m.id, st.fresh)] }
      | (_, _, h1, m1) => { st.putMsg mi (m1.getD m) with heap := h1 }
  | .messageResetStatus mi =>
    match st.getMsg mi with
    | none => st
    | some m =>
      let (_, _, m1) := smtp_message_reset_status (some m)
      st.putMsg mi (m1.getD m)
  | .recipientResetStatus mi ri =>
    match st.getRcpt mi ri with
    | none => st
    | some r =>
      let (_, _, r1) := smtp_recipient_reset_status (some r)
      st.putRcpt mi ri (r1.getD r)
  | .dsnSetRet mi flags =>
    match st.getMsg mi with
    | none => st
    | some m =>
      let (_, _, e1, m1) := smtp_dsn_set_ret st.session.required_extensions (some m) flags
      (st.putMsg mi (m1.getD m)).putExt e1
  | .dsnSetEnvid mi envid ok =>
    match st.getMsg mi with
    | none => st
    | some m =>
      match smtp_dsn_set_envid ok st.heap st.session.required_extensions (some m) (some envid) with
      | .out _ _ (h1, e1, m1) => { (st.putMsg mi (m1.getD m)).putExt e1 with heap := h1 }
      | .undef => st
  | .dsnSetNotify mi ri flags =>
    match st.getRcpt mi ri with
    | none => st
    | some r =>
      let (_, _, e1, r1) := smtp_dsn_set_notify st.session.required_extensions (some r) flags
      (st.putRcpt mi ri (r1.getD r)).putExt e1
  | .dsnSetOrcpt mi ri atype addr ok1 ok2 =>
    match st.getRcpt mi ri with
    | none => st
    | some r =>
      match smtp_dsn_set_orcpt ok1 ok2 st.heap st.session.required_extensions
          (some r) (some atype) (some addr) with
      | .out _ _ (h1, e1, r1) => { (st.putRcpt mi ri (r1.getD r)).putExt e1 with heap := h1 }
      | .undef => st
  | .sizeSetEstimate mi size =>
    match st.getMsg mi with
    | none => st
    | some m =>
      let (_, _, m1) := smtp_size_set_estimate (some m) size
      st.putMsg mi (m1.getD m)
  | .e8SetBody mi body =>
    match st.getMsg mi with
    | none => st
    | some m =>
      let (_, _, e1, m1) := smtp_8bitmime_set_body st.session.required_extensions (some m) body
      (st.putMsg mi (m1.getD m)).putExt e1
  | .deliverbySetMode mi time mode trace =>
    match st.getMsg mi with
    | none => st
    | some m =>
      let (_, _, m1) := smtp_deliverby_set_mode (some m) time mode trace
      st.putMsg mi (m1.getD m)
  | .setMessagecb mi cb =>
    match st.getMsg mi with
    | none => st
    | some m =>
      let (_, _, m1) := smtp_set_messagecb (some m) cb
      st.putMsg mi (m1.getD m)
  | .setEventcb cb =>
    let (_, _, s1) := smtp_set_eventcb (some st.session) cb
    { st with session := s1.getD st.session }
  | .setMonitorcb cb headers =>
    let (_, _, s1) := smtp_set_monitorcb (some st.session) cb headers
    { st with session := s1.getD st.session }

/-- Run a whole construction history. -/
def runOps (servdb : String → Option Nat) (ops : List Op) (st : State) : State :=
  ops.foldl (fun s op => step servdb op s) st

/-- The message ids visited by `smtp_enumerate_messages` with a collecting
callback, in visit order. -/
def enumMsgIds (s : smtp_session) : List Nat :=
  match smtp_enumerate_messages (some s) (some (fun m acc => acc ++ [m.id])) [] with
  | .res _ _ l => l
  | .undef => []

/-- The recipient ids visited by `smtp_enumerate_recipients` with a
collecting callback, in visit order. -/
def enumRcptIds (m : smtp_message) : List Nat :=
  match smtp_enumerate_recipients (some m) (some (fun r _ acc => acc ++ [r.id])) [] with
  | .res _ _ l => l
  | .undef => []

/-- The ghost journal's creation order of the recipients of the message with
stamp `mid`. -/
def rcptOrder (st : State) (mid : Nat) : List Nat :=
  (st.rcptLog.filter (fun p => p.1 == mid)).map Prod.snd

/-- Event `e1` occurs strictly before event `e2` somewhere in the trace. -/
def Before (e1 e2 : Evt) (tr : List Evt) : Prop :=
  ∃ i j : Nat, i < j ∧ tr[i]? = some e1 ∧ tr[j]? = some e2

/-- Heap–ownership invariant of a construction state: live blocks are
distinct and below the fresh counter; the addresses the session owns are
pairwise distinct and all live. -/
def HeapInv (st : State) : Prop :=
  st.heap.addrs.Nodup ∧
  (∀ a ∈ st.heap.addrs, a < st.heap.next) ∧
  (sessionOwned st.session).Nodup ∧
  (∀ a ∈ sessionOwned st.session, a ∈ st.heap.addrs)

/-- Ghost-journal invariant: the message list carries exactly the logged
creation stamps in order; each message's recipient list carries exactly the
stamps logged for it in order; stamps are distinct and below the fresh
counter. -/
def GhostInv (st : State) : Prop :=
  st.session.messages.map (fun m => m.id) = st.msgLog ∧
  st.msgLog.Nodup ∧
  (∀ i ∈ st.msgLog, i < st.fresh) ∧
  (∀ m ∈ st.session.messages,
    m.recipients.map (fun r => r.id) = rcptOrder st m.id) ∧
  (st.rcptLog.map Prod.snd).Nodup ∧
  (∀ p ∈ st.rcptLog, p.2 < st.fresh) ∧
  (∀ p ∈ st.rcptLog, p.1 < st.fresh)

/-- A service database that resolves no service name, for concrete runs. -/
def sampleDb : String → Option Nat := fun _ => none

/-- A small concrete construction history — one message, one recipient, an
ENVID and a server assignment, every allocation succeeding — used to
evaluate the state-machine theorems on a concrete input. -/
def sampleOps : List Op :=
  [Op.addMessage true,
   Op.addRecipient 0 (some "alice@example.org") true true,
   Op.dsnSetEnvid 0 "eid" true,
   Op.setServer "mail.example.org:2525" true]

/-!  General-purpose helper lemmas. -/

theorem foldl_collect {α β : Type} (f : α → β) :
    ∀ (l : List α) (acc : List β),
      l.foldl (fun a x => a ++ [f x]) acc = acc ++ l.map f := by
  intro l
  induction l with
  | nil => intro acc; simp
  | cons x xs ih => intro acc; simp [ih]

theorem enumMsgIds_eq (s : smtp_session) :
    enumMsgIds s = s.messages.map (fun m => m.id) := by
  simp [enumMsgIds, smtp_enumerate_messages, foldl_collect (fun m : smtp_message => m.id)]

theorem enumRcptIds_eq (m : smtp_message) :
    enumRcptIds m = m.recipients.map (fun r => r.id) := by
  simp [enumRcptIds, smtp_enumerate_recipients,
    foldl_collect (fun r : smtp_recipient => r.id)]

theorem map_fst_filter_ne (a : Addr) :
    ∀ (bs : List (Addr × String)),
      (bs.filter (fun p => p.1 != a)).map Prod.fst
        = (bs.map Prod.fst).filter (fun x => x != a) := by
  intro bs
  induction bs with
  | nil => rfl
  | cons p ps ih =>
    by_cases hp : p.1 = a
    · simp [hp, ih]
    · simp [List.filter_cons, hp, ih]

theorem Heap.free_addrs (h : Heap) (a : Addr) :
    (h.free a).addrs = h.addrs.filter (fun x => x != a) := by
  simp [Heap.free, Heap.addrs, map_fst_filter_ne]

theorem Heap.alloc_addrs (h : Heap) (s : String) :
    ((h.alloc s).2).addrs = h.addrs ++ [h.next] := by
  simp [Heap.alloc, Heap.addrs]

theorem Heap.write_addrs (h : Heap) (a : Addr) (s : String) :
    (h.write a s).addrs = h.addrs := by
  show (h.blocks.map _).map Prod.fst = h.blocks.map Prod.fst
  induction h.blocks with
  | nil => rfl
  | cons p ps ih =>
    by_cases hp : p.1 = a <;> simp [hp, ih]

theorem mem_filter_ne {l : List Nat} {x a : Nat} :
    x ∈ l.filter (fun y => y != a) ↔ x ∈ l ∧ x ≠ a := by
  simp [List.mem_filter]

theorem filter_ne_of_not_mem {l : List Nat} {a : Nat} (h : a ∉ l) :
    l.filter (fun y => y != a) = l := by
  induction l with
  | nil => rfl
  | cons x xs ih =>
    simp only [List.mem_cons, not_or] at h
    simp [List.filter_cons, Ne.symm h.1, bne_iff_ne, ih h.2]

theorem mem_get_idx {α : Type} {a : α} :
    ∀ {l : List α}, a ∈ l → ∃ i : Nat, l[i]? = some a := by
  intro l h
  induction l with
  | nil => cases h
  | cons x xs ih =>
    rcases List.mem_cons.mp h with h | h
    · exact ⟨0, by simp [h]⟩
    · obtain ⟨i, hi⟩ := ih h
      exact ⟨i + 1, by simpa using hi⟩

theorem get?_append_left {α : Type} {xs ys : List α} {i : Nat} (h : i < xs.length) :
    (xs ++ ys)[i]? = xs[i]? := by
  exact List.getElem?_append_left h

theorem get?_append_right_idx {α : Type} (xs ys : List α) (i : Nat) :
    (xs ++ ys)[xs.length + i]? = ys[i]? := by
  induction xs with
  | nil => simp
  | cons x l ih => simpa [Nat.succ_add] using ih

theorem before_append_of_mem {e1 e2 : Evt} {xs ys : List Evt}
    (h1 : e1 ∈ xs) (h2 : e2 ∈ ys) : Before e1 e2 (xs ++ ys) := by
  obtain ⟨i, hi⟩ := mem_get_idx h1
  obtain ⟨j, hj⟩ := mem_get_idx h2
  have hilt : i < xs.length := by
    by_contra hge
    simp [List.getElem?_eq_none (Nat.le_of_not_lt hge)] at hi
  refine ⟨i, xs.length + j, by omega, ?_, ?_⟩
  · rw [get?_append_left hilt]; exact hi
  · rw [get?_append_right_idx]; exact hj

theorem before_append_right {e1 e2 : Evt} {u v : List Evt}
    (h : Before e1 e2 v) : Before e1 e2 (u ++ v) := by
  obtain ⟨i, j, hij, hi, hj⟩ := h
  exact ⟨u.length + i, u.length + j, by omega,
    by rw [get?_append_right_idx]; exact hi,
    by rw [get?_append_right_idx]; exact hj⟩

theorem before_append_left {e1 e2 : Evt} {u v : List Evt}
    (h : Before e1 e2 u) : Before e1 e2 (u ++ v) := by
  obtain ⟨i, j, hij, hi, hj⟩ := h
  have hjlt : j < u.length := by
    by_contra hge
    simp [List.getElem?_eq_none (Nat.le_of_not_lt hge)] at hj
  exact ⟨i, j, hij,
    by rw [get?_append_left (by omega)]; exact hi,
    by rw [get?_append_left hjlt]; exact hj⟩

theorem before_infix {e1 e2 : Evt} {mid : List Evt} (L R : List Evt)
    (h : Before e1 e2 mid) : Before e1 e2 (L ++ mid ++ R) := by
  rw [List.append_assoc]
  exact before_append_right (before_append_left h)

theorem flatten_map_decomp {α β : Type} (f : α → List β) :
    ∀ {l : List α} {m : α}, m ∈ l →
      ∃ L R, (l.map f).flatten = L ++ f m ++ R := by
  intro l
  induction l with
  | nil => intro m h; cases h
  | cons x xs ih =>
    intro m h
    rcases List.mem_cons.mp h with h | h
    · exact ⟨[], (xs.map f).flatten, by simp [h]⟩
    · obtain ⟨L, R, hLR⟩ := ih h
      exact ⟨f x ++ L, R, by simp [hLR]⟩

theorem mem_flatten_map {α β : Type} {f : α → List β} {l : List α} {m : α} {b : β}
    (hm : m ∈ l) (hb : b ∈ f m) : b ∈ (l.map f).flatten := by
  obtain ⟨L, R, hLR⟩ := flatten_map_decomp f hm
  rw [hLR]; simp [hb]

theorem map_key_preserve (k : Addr) (c : String) :
    ∀ (bs : List (Addr × String)), (∀ p ∈ bs, p.1 ≠ k) →
      bs.map (fun p => if p.1 = k then (k, c) else p) = bs := by
  intro bs hbs
  induction bs with
  | nil => rfl
  | cons p ps ih =>
    have h1 : p.1 ≠ k := hbs p (List.mem_cons_self _ _)
    simp only [List.map_cons, if_neg h1, List.cons.injEq, true_and]
    exact ih (fun q hq => hbs q (List.mem_cons_of_mem _ hq))

theorem find?_last_key (k : Addr) (c : String) :
    ∀ (bs : List (Addr × String)), (∀ p ∈ bs, p.1 ≠ k) →
      (bs ++ [(k, c)]).find? (fun p => p.1 == k) = some (k, c) := by
  intro bs hbs
  induction bs with
  | nil => simp
  | cons p ps ih =>
    have h1 : (p.1 == k) = false := by simpa using hbs p (List.mem_cons_self _ _)
    simpa [List.find?_cons, h1] using ih (fun q hq => hbs q (List.mem_cons_of_mem _ hq))

theorem lookup_write_alloc (h : Heap) (hwf : ∀ a ∈ h.addrs, a < h.next) (s c : String) :
    (((h.alloc s).2).write h.next c).lookup h.next = some c := by
  have hk : ∀ p ∈ h.blocks, p.1 ≠ h.next := by
    intro p hp
    exact Nat.ne_of_lt (hwf p.1 (List.mem_map_of_mem Prod.fst hp))
  simp only [Heap.lookup, Heap.write, Heap.alloc, List.map_append, List.map_cons,
    List.map_nil, eq_self_iff_true, if_true]
  rw [map_key_preserve h.next c h.blocks hk, find?_last_key h.next c h.blocks hk]
  rfl

/-!  Per-function claim theorems. -/

/-- C1: evaluation of `smtp_dsn_set_orcpt` at the failing input — a
recipient with both DSN pair fields unset, first `strdup` succeeding
(address type stored at address 0), second `strdup` failing.  The call
returns OutOfMemory, block 0 is freed from the heap, `dsn_orcpt` is unset —
but `dsn_addrtype` still holds the freed address 0, so the recipient is NOT
in its prior unset state: the field now dangles, and the session destructor
would free address 0 a second time. -/
theorem dsn_set_orcpt_second_failure_stale_field :
    smtp_dsn_set_orcpt true false Heap.empty 0 (some {}) (some "rfc822")
        (some "bob@example.org")
      = .out 0 (some .SMTP_ERR_NOMEM) (⟨1, []⟩, 0, some { dsn_addrtype := some 0 })
    ∧ ({ dsn_addrtype := some 0 } : smtp_recipient) ≠ ({} : smtp_recipient)
    ∧ (0 : Addr) ∉ (⟨1, []⟩ : Heap).addrs := by
  refine ⟨by decide, by decide, by decide⟩

/-- C2: `smtp_start_session` fails with InvalidArgument — without invoking
the external engine (the result does not depend on `do_session`) — whenever
the host is unset or some message lacks a transfer callback; when all
preconditions hold it returns the engine's result unchanged. -/
theorem smtp_start_session_validates :
    ∀ (do_session : smtp_session → Int) (sess : smtp_session),
      ((sess.host = none ∨ ∃ m ∈ sess.messages, m.cb = none) →
        smtp_start_session do_session (some sess) = (0, some .SMTP_ERR_INVAL)) ∧
      (sess.host ≠ none → (∀ m ∈ sess.messages, m.cb ≠ none) →
        smtp_start_session do_session (some sess) = (do_session sess, none)) := by
  intro f sess
  constructor
  · rintro (hh | ⟨m, hm, hcb⟩)
    · simp [smtp_start_session, hh]
    · by_cases hh : sess.host = none
      · simp [smtp_start_session, hh]
      · have hany : sess.messages.any (fun m => m.cb = none) = true := by
          rw [List.any_eq_true]
          exact ⟨m, hm, by simp [hcb]⟩
        simp [smtp_start_session, hh, hany]
  · intro hh hcb
    have hany : sess.messages.any (fun m => m.cb = none) = false := by
      rw [List.any_eq_false]
      intro m hm
      simpa using hcb m hm
    simp [smtp_start_session, hh, hany]

/-- C2 witness: a session with no host is rejected; a complete session is
handed to the engine and its result (here 1) is returned. -/
theorem smtp_start_session_validates_witness :
    smtp_start_session (fun _ => 1) (some {}) = (0, some .SMTP_ERR_INVAL) ∧
    smtp_start_session (fun _ => 1)
        (some { host := some 0, messages := [{ cb := some () }] }) = (1, none) :=
  ⟨(smtp_start_session_validates (fun _ => 1) {}).1 (Or.inl rfl),
   (smtp_start_session_validates (fun _ => 1)
      { host := some 0, messages := [{ cb := some () }] }).2 (by decide) (by decide)⟩

/-- C3: the `smtp_deliverby_set_mode` validation gate — a time outside
[-999999999, +999999999], or RETURN mode with a non-positive time, fails
with InvalidArgument leaving the message unchanged; otherwise the three
supplied values are stored exactly. -/
theorem smtp_deliverby_set_mode_gate :
    ∀ (m : smtp_message) (time : Int) (mode : by_mode) (trace : Bool),
      ((¬(-999999999 ≤ time ∧ time ≤ 999999999) ∨ (mode = .By_RETURN ∧ time ≤ 0)) →
        smtp_deliverby_set_mode (some m) time mode trace
          = (0, some .SMTP_ERR_INVAL, some m)) ∧
      ((-999999999 ≤ time ∧ time ≤ 999999999) → ¬(mode = .By_RETURN ∧ time ≤ 0) →
        smtp_deliverby_set_mode (some m) time mode trace
          = (1, none, some { m with by_time := time, by_mode := mode, by_trace := trace })) := by
  intro m time mode trace
  constructor
  · rintro (h | h)
    · simp [smtp_deliverby_set_mode, h]
    · by_cases hr : (-999999999 ≤ time ∧ time ≤ 999999999)
      · simp [smtp_deliverby_set_mode, hr, h]
      · simp [smtp_deliverby_set_mode, hr]
  · intro h1 h2
    simp [smtp_deliverby_set_mode, h1, h2]

/-- C3 witness: `deliverby (0, RETURN, false)` is rejected;
`deliverby (120, NOTIFY, true)` stores exactly 120/NOTIFY/true. -/
theorem smtp_deliverby_set_mode_gate_witness :
    smtp_deliverby_set_mode (some {}) 0 .By_RETURN false
      = (0, some .SMTP_ERR_INVAL, some {}) ∧
    smtp_deliverby_set_mode (some {}) 120 .By_NOTIFY true
      = (1, none, some { by_time := 120, by_mode := .By_NOTIFY, by_trace := true }) :=
  ⟨(smtp_deliverby_set_mode_gate {} 0 .By_RETURN false).1 (Or.inr ⟨rfl, by decide⟩),
   (smtp_deliverby_set_mode_gate {} 120 .By_NOTIFY true).2 (by decide) (by decide)⟩

/-- C4: `smtp_add_recipient` with a null mailbox fails with InvalidArgument,
and with a failed mailbox duplication releases the partially constructed
recipient and fails with OutOfMemory; in both cases the message (and so its
recipient list) and the heap are returned unchanged and no recipient is
handed back. -/
theorem smtp_add_recipient_error_paths :
    ∀ (gid : Nat) (h : Heap) (m : smtp_message) (okm oks : Bool) (mbx : String),
      (smtp_add_recipient okm oks gid h (some m) none
        = (none, some .SMTP_ERR_INVAL, h, some m)) ∧
      (okm = true → oks = false →
        smtp_add_recipient okm oks gid h (some m) (some mbx)
          = (none, some .SMTP_ERR_NOMEM, h, some m)) := by
  intro gid h m okm oks mbx
  refine ⟨rfl, ?_⟩
  rintro rfl rfl
  simp [smtp_add_recipient, strdup]

/-- C4 witness: both failure paths at a concrete message. -/
theorem smtp_add_recipient_error_paths_witness :
    smtp_add_recipient true false 0 Heap.empty (some {}) none
      = (none, some .SMTP_ERR_INVAL, Heap.empty, some {}) ∧
    smtp_add_recipient true false 0 Heap.empty (some {}) (some "a@b")
      = (none, some .SMTP_ERR_NOMEM, Heap.empty, some {}) :=
  ⟨(smtp_add_recipient_error_paths 0 Heap.empty {} true false "a@b").1,
   (smtp_add_recipient_error_paths 0 Heap.empty {} true false "a@b").2 rfl rfl⟩

/-- C8: `smtp_set_server` — allocation failure gives OutOfMemory; otherwise
`hostport` is split at the first colon and the part before it is stored as
the host string; with no service part the stored port is 587; a numeric
service is parsed with `strtol`; a non-numeric service is resolved through
the service database, and an unresolvable name fails with InvalidArgument
leaving the session unchanged. -/
theorem smtp_set_server_spec :
    ∀ (servdb : String → Option Nat) (h : Heap) (sess : smtp_session) (hp : String),
      (∀ a ∈ h.addrs, a < h.next) →
      (smtp_set_server false servdb h (some sess) (some hp)
          = (0, some .SMTP_ERR_NOMEM, h, some sess)) ∧
      ((splitColon hp.data).2 = none →
        ∃ h1, smtp_set_server true servdb h (some sess) (some hp)
            = (1, none, h1, some { sess with port := 587, host := some h.next })
          ∧ h1.lookup h.next = some (String.mk (splitColon hp.data).1)) ∧
      (∀ sv, (splitColon hp.data).2 = some sv → headIsDigit sv = true →
        ∃ h1, smtp_set_server true servdb h (some sess) (some hp)
            = (1, none, h1, some { sess with port := strtol10 sv, host := some h.next })
          ∧ h1.lookup h.next = some (String.mk (splitColon hp.data).1)) ∧
      (∀ sv p, (splitColon hp.data).2 = some sv → headIsDigit sv = false →
        servdb (String.mk sv) = some p →
        ∃ h1, smtp_set_server true servdb h (some sess) (some hp)
            = (1, none, h1, some { sess with port := (p : Int), host := some h.next })) ∧
      (∀ sv, (splitColon hp.data).2 = some sv → headIsDigit sv = false →
        servdb (String.mk sv) = none →
        ∃ h1, smtp_set_server true servdb h (some sess) (some hp)
            = (0, some .SMTP_ERR_INVAL, h1, some sess)) := by
  intro servdb h sess hp hwf
  refine ⟨rfl, ?_, ?_, ?_, ?_⟩
  · intro hsv
    rcases hq : splitColon hp.data with ⟨hostPart, service⟩
    rw [hq] at hsv
    obtain rfl : service = none := hsv
    refine ⟨((h.alloc hp).2).write h.next (String.mk hostPart), ?_, ?_⟩
    · simp [smtp_set_server, strdup, Heap.alloc, hq]
    · exact lookup_write_alloc h hwf hp (String.mk hostPart)
  · intro sv hsv hd
    rcases hq : splitColon hp.data with ⟨hostPart, service⟩
    rw [hq] at hsv
    obtain rfl : service = some sv := hsv
    refine ⟨((h.alloc hp).2).write h.next (String.mk hostPart), ?_, ?_⟩
    · simp [smtp_set_server, strdup, Heap.alloc, hq, hd]
    · exact lookup_write_alloc h hwf hp (String.mk hostPart)
  · intro sv p hsv hd hdb
    rcases hq : splitColon hp.data with ⟨hostPart, service⟩
    rw [hq] at hsv
    obtain rfl : service = some sv := hsv
    refine ⟨((h.alloc hp).2).write h.next (String.mk hostPart), ?_⟩
    simp [smtp_set_server, strdup, Heap.alloc, hq, hd, hdb]
  · intro sv hsv hd hdb
    rcases hq : splitColon hp.data with ⟨hostPart, service⟩
    rw [hq] at hsv
    obtain rfl : service = some sv := hsv
    refine ⟨(((h.alloc hp).2).write h.next (String.mk hostPart)).free h.next, ?_⟩
    simp [smtp_set_server, strdup, Heap.alloc, hq, hd, hdb]

/-- C8 witness: with no colon the port defaults to 587 and the full string
is stored as host; an unresolvable service name is rejected. -/
theorem smtp_set_server_spec_witness :
    (∃ h1, smtp_set_server true (fun _ => none) Heap.empty (some {})
          (some "mail.example.org")
        = (1, none, h1, some { port := 587, host := some 0 })
      ∧ h1.lookup 0 = some (String.mk (splitColon "mail.example.org".data).1)) ∧
    (∃ h1, smtp_set_server true (fun _ => none) Heap.empty (some {}) (some "mail:bogus")
        = (0, some .SMTP_ERR_INVAL, h1, some {})) :=
  ⟨((smtp_set_server_spec (fun _ => none) Heap.empty {} "mail.example.org"
      (by decide)).2.1) (by decide),
   ((smtp_set_server_spec (fun _ => none) Heap.empty {} "mail:bogus"
      (by decide)).2.2.2.2) "bogus".data (by decide) (by decide) rfl⟩

/-- C9: `smtp_enumerate_messages` rejects a null callback with
InvalidArgument, but `smtp_enumerate_recipients` checks only the message
pointer: with at least one recipient a null callback is invoked — a null
function pointer dereference (undefined behaviour), not a rejection. -/
theorem enumerate_recipients_unchecked_callback :
    ∀ (σ : Type) (arg : σ) (sess : smtp_session) (m : smtp_message),
      (smtp_enumerate_messages (σ := σ) (some sess) none arg
        = .res 0 (some .SMTP_ERR_INVAL) arg) ∧
      (m.recipients ≠ [] →
        smtp_enumerate_recipients (σ := σ) (some m) none arg = .undef) := by
  intro σ arg sess m
  refine ⟨rfl, ?_⟩
  intro hne
  simp [smtp_enumerate_recipients, hne]

/-- C9 witness: a message with one recipient dereferences the null
callback. -/
theorem enumerate_recipients_unchecked_callback_witness :
    smtp_enumerate_messages (σ := Nat) (some {}) none 0
      = .res 0 (some .SMTP_ERR_INVAL) 0 ∧
    smtp_enumerate_recipients (σ := Nat) (some { recipients := [{}] }) none 0 = .undef :=
  ⟨(enumerate_recipients_unchecked_callback Nat 0 {} { recipients := [{}] }).1,
   (enumerate_recipients_unchecked_callback Nat 0 {} { recipients := [{}] }).2 (by decide)⟩

/-- C10: `smtp_dsn_set_envid` applies `strdup` to its `envid` argument with
no validation — a null `envid` is undefined behaviour, not an
InvalidArgument rejection — and a successful call overwrites a previously
stored ENVID with a fresh block without freeing the old one, which stays
live in the heap. -/
theorem dsn_set_envid_unchecked_and_leaky :
    ∀ (ok : Bool) (h : Heap) (ext : Nat) (m : smtp_message) (s : String) (a : Addr),
      (smtp_dsn_set_envid ok h ext (some m) none = .undef) ∧
      (m.dsn_envid = some a → a ∈ h.addrs → (∀ b ∈ h.addrs, b < h.next) →
        smtp_dsn_set_envid true h ext (some m) (some s)
          = .out 1 none ((h.alloc s).2, ext ||| EXT_DSN,
              some { m with dsn_envid := some h.next })
        ∧ a ∈ ((h.alloc s).2).addrs ∧ h.next ≠ a) := by
  intro ok h ext m s a
  refine ⟨rfl, ?_⟩
  intro henv ha hwf
  refine ⟨rfl, ?_, ?_⟩
  · rw [Heap.alloc_addrs]
    exact List.mem_append_left _ ha
  · exact (Nat.ne_of_lt (hwf a ha)).symm

/-!  Structural lemmas for the state-machine invariants. -/

theorem get?_set_decomp {α : Type} :
    ∀ {l : List α} {i : Nat} {x : α}, l.get? i = some x →
      ∃ p q, l = p ++ x :: q ∧ p.length = i ∧ ∀ y, l.set i y = p ++ y :: q := by
  intro l
  induction l with
  | nil => intro i x h; cases h
  | cons z zs ih =>
    intro i x h
    cases i with
    | zero =>
      obtain rfl : z = x := by simpa using h
      exact ⟨[], zs, rfl, rfl, fun y => rfl⟩
    | succ i =>
      obtain ⟨p, q, hl, hlen, hset⟩ := ih (by simpa using h)
      refine ⟨z :: p, q, by simp [hl], by simp [hlen], fun y => ?_⟩
      simp [List.set, hset y]

theorem set_get_self {α : Type} {l : List α} {i : Nat} {x : α}
    (h : l.get? i = some x) : l.set i x = l := by
  obtain ⟨p, q, hl, _, hset⟩ := get?_set_decomp h
  rw [hset x, hl]

theorem count_le_one_of_nodup {l : List Nat} (h : l.Nodup) (a : Nat) :
    l.count a ≤ 1 :=
  List.nodup_iff_count_le_one.mp h a

theorem nodup_of_counts {l : List Nat} (h : ∀ a, l.count a ≤ 1) : l.Nodup :=
  List.nodup_iff_count_le_one.mpr h

theorem count_zero_of_bounded {l : List Nat} {f : Nat} (h : ∀ b ∈ l, b < f) :
    l.count f = 0 :=
  List.count_eq_zero.mpr (fun hf => lt_irrefl f (h f hf))

theorem filter_beq_nil {l : List (Nat × Nat)} {k : Nat} (h : ∀ p ∈ l, p.1 ≠ k) :
    l.filter (fun p => p.1 == k) = [] := by
  induction l with
  | nil => rfl
  | cons p ps ih =>
    have h1 : (p.1 == k) = false := by simpa using h p (List.mem_cons_self _ _)
    simp [List.filter_cons, h1, ih (fun q hq => h q (List.mem_cons_of_mem _ hq))]

theorem sessionOwned_decomp {s : smtp_session} {p q : List smtp_message}
    {m : smtp_message} (h : s.messages = p ++ m :: q) :
    sessionOwned s
      = (s.host.toList ++ s.localhost.toList ++ (p.map messageOwned).flatten)
        ++ messageOwned m ++ (q.map messageOwned).flatten := by
  simp [sessionOwned, h, List.append_assoc]

theorem messageOwned_decomp {m : smtp_message} {p q : List smtp_recipient}
    {r : smtp_recipient} (h : m.recipients = p ++ r :: q) :
    messageOwned m
      = m.reverse_path_mailbox.toList
        ++ ((p.map recipientOwned).flatten
            ++ recipientOwned r ++ ((q.map recipientOwned).flatten ++ m.dsn_envid.toList)) := by
  simp [messageOwned, h, List.append_assoc]

theorem id_ne_of_nodup {p q : List smtp_message} {m : smtp_message}
    (h : (((p ++ m :: q).map (fun x => x.id))).Nodup) :
    (∀ m2 ∈ p, m2.id ≠ m.id) ∧ (∀ m2 ∈ q, m2.id ≠ m.id) := by
  have hc := count_le_one_of_nodup h m.id
  simp only [List.map_append, List.map_cons, List.count_append, List.count_cons_self] at hc
  have hp0 : (p.map (fun x => x.id)).count m.id = 0 := by omega
  have hq0 : (q.map (fun x => x.id)).count m.id = 0 := by omega
  constructor
  · intro m2 hm2 he
    have : m.id ∈ p.map (fun x => x.id) := he ▸ List.mem_map_of_mem _ hm2
    exact absurd this (List.count_eq_zero.mp hp0)
  · intro m2 hm2 he
    have : m.id ∈ q.map (fun x => x.id) := he ▸ List.mem_map_of_mem _ hm2
    exact absurd this (List.count_eq_zero.mp hq0)

theorem ghostInv_congr {st st1 : State}
    (hmsg : st1.session.messages = st.session.messages)
    (hfresh : st1.fresh = st.fresh) (hml : st1.msgLog = st.msgLog)
    (hrl : st1.rcptLog = st.rcptLog) : GhostInv st → GhostInv st1 := by
  intro hG
  unfold GhostInv rcptOrder at hG ⊢
  rw [hmsg, hfresh, hml, hrl]
  exact hG

theorem heapInv_congr {s t : State}
    (hheap : t.heap = s.heap)
    (howned : sessionOwned t.session = sessionOwned s.session) :
    HeapInv s → HeapInv t := by
  intro hH
  unfold HeapInv at hH ⊢
  rw [hheap, howned]
  exact hH

/-- A message-level update that keeps the message's owned addresses
preserves the heap invariant (relative to an unchanged heap). -/
theorem heap_putMsg_same {st : State} {mi : Nat} {m w : smtp_message}
    (hm : st.getMsg mi = some m)
    (hown : messageOwned w = messageOwned m) :
    HeapInv st → HeapInv (st.putMsg mi w) := by
  obtain ⟨p, q, hl, hlen, hset⟩ := get?_set_decomp hm
  have hmsgs : (st.putMsg mi w).session.messages = p ++ w :: q := by
    simp [State.putMsg, hset w]
  refine heapInv_congr rfl ?_
  rw [sessionOwned_decomp hmsgs, sessionOwned_decomp (show st.session.messages = _ from hl),
    hown]
  simp [State.putMsg]

/-- A message-level update that keeps the message's stamp and its recipient
stamps preserves the ghost invariant. -/
theorem ghost_putMsg_same {st : State} {mi : Nat} {m m1 : smtp_message}
    (hm : st.getMsg mi = some m)
    (hid : m1.id = m.id)
    (hrc : m1.recipients.map (fun r => r.id) = m.recipients.map (fun r => r.id)) :
    GhostInv st → GhostInv (st.putMsg mi m1) := by
  obtain ⟨p, q, hl, hlen, hset⟩ := get?_set_decomp hm
  have hmsgs : (st.putMsg mi m1).session.messages = p ++ m1 :: q := by
    simp [State.putMsg, hset m1]
  intro hG
  obtain ⟨g1, g2, g3, g4, g5, g6, g7⟩ := hG
  have hml : (st.putMsg mi m1).msgLog = st.msgLog := rfl
  refine ⟨?_, g2, g3, ?_, g5, g6, g7⟩
  · rw [hmsgs, hml, ← g1, hl]
    simp [hid]
  · intro m2 hm2
    rw [hmsgs] at hm2
    have hro : ∀ mid, rcptOrder (st.putMsg mi m1) mid = rcptOrder st mid := by
      intro mid; rfl
    rcases List.mem_append.mp hm2 with h2 | h2
    · rw [hro]
      exact g4 m2 (by rw [hl]; exact List.mem_append_left _ h2)
    · rcases List.mem_cons.mp h2 with rfl | h2
      · rw [hro, hrc, hid]
        exact g4 m (by rw [hl]; exact List.mem_append_right _ (List.mem_cons_self _ _))
      · rw [hro]
        exact g4 m2 (by rw [hl]; exact List.mem_append_right _ (List.mem_cons_of_mem _ h2))

/-- Setting one recipient with an id-preserving update keeps the recipient
stamp list of the message. -/
theorem rcpt_set_ids {m : smtp_message} {ri : Nat} {r r1 : smtp_recipient}
    (hr : m.recipients.get? ri = some r) (hid : r1.id = r.id) :
    (m.recipients.set ri r1).map (fun r => r.id)
      = m.recipients.map (fun r => r.id) := by
  obtain ⟨p, q, hl, hlen, hset⟩ := get?_set_decomp hr
  rw [hset r1, hl]
  simp [hid]

/-- Setting one recipient with an ownership-preserving update keeps the
owned addresses of the message. -/
theorem rcpt_set_owned {m : smtp_message} {ri : Nat} {r r1 : smtp_recipient}
    (hr : m.recipients.get? ri = some r)
    (hown : recipientOwned r1 = recipientOwned r) :
    messageOwned { m with recipients := m.recipients.set ri r1 } = messageOwned m := by
  obtain ⟨p, q, hl, hlen, hset⟩ := get?_set_decomp hr
  have h2 : ({ m with recipients := m.recipients.set ri r1 } : smtp_message).recipients
      = p ++ r1 :: q := by simp [hset r1]
  rw [messageOwned_decomp h2, messageOwned_decomp (m := m) hl]
  simp [hown]

theorem putRcpt_eq {st : State} {mi ri : Nat} {m : smtp_message} (r1 : smtp_recipient)
    (hm : st.getMsg mi = some m) :
    st.putRcpt mi ri r1 = st.putMsg mi { m with recipients := m.recipients.set ri r1 } := by
  simp [State.putRcpt, hm]

theorem getRcpt_eq {st : State} {mi ri : Nat} {m : smtp_message}
    (hm : st.getMsg mi = some m) :
    st.getRcpt mi ri = m.recipients.get? ri := by
  simp [State.getRcpt, hm]

theorem putExt_heapInv {st : State} {e : Nat} :
    HeapInv st → HeapInv (st.putExt e) := by
  exact heapInv_congr rfl rfl

theorem putExt_ghostInv {st : State} {e : Nat} :
    GhostInv st → GhostInv (st.putExt e) := by
  exact ghostInv_congr rfl rfl rfl rfl

/-- C10 witness: overwriting ENVID at address 0 with a fresh block at
address 1 leaves block 0 live (leaked). -/
theorem dsn_set_envid_unchecked_and_leaky_witness :
    smtp_dsn_set_envid true (⟨1, [(0, "old")]⟩ : Heap) 0
        (some { dsn_envid := some 0 }) none = .undef ∧
    (smtp_dsn_set_envid true (⟨1, [(0, "old")]⟩ : Heap) 0
        (some { dsn_envid := some 0 }) (some "abc")
      = .out 1 none ((Heap.alloc ⟨1, [(0, "old")]⟩ "abc").2, 0 ||| EXT_DSN,
          some { dsn_envid := some 1 })
    ∧ (0 : Addr) ∈ ((Heap.alloc ⟨1, [(0, "old")]⟩ "abc").2).addrs ∧ (1 : Addr) ≠ 0) :=
  ⟨(dsn_set_envid_unchecked_and_leaky true ⟨1, [(0, "old")]⟩ 0
      { dsn_envid := some 0 } "abc" 0).1,
   (dsn_set_envid_unchecked_and_leaky true ⟨1, [(0, "old")]⟩ 0
      { dsn_envid := some 0 } "abc" 0).2 rfl (by decide) (by decide)⟩

theorem ghost_heap_override {st : State} {h1 : Heap} :
    GhostInv st → GhostInv { st with heap := h1 } :=
  ghostInv_congr rfl rfl rfl rfl

/-!  Result-shape facts for the core functions, used to push `step` through
its match expressions. -/

theorem set_server_messages (ok : Bool) (db : String → Option Nat) (h : Heap)
    (sess : smtp_session) (hp : String) :
    ((smtp_set_server ok db h (some sess) (some hp)).2.2.2.getD sess).messages
      = sess.messages := by
  cases ok
  · rfl
  · rcases hq : splitColon hp.data with ⟨hostPart, service⟩
    cases service with
    | none => simp [smtp_set_server, strdup, hq]
    | some sv =>
      by_cases hd : headIsDigit sv
      · simp [smtp_set_server, strdup, hq, hd]
      · cases hdb : db (String.mk sv) with
        | some p => simp [smtp_set_server, strdup, hq, hd, hdb]
        | none => simp [smtp_set_server, strdup, hq, hd, hdb]

theorem set_hostname_messages (ok : Bool) (h : Heap) (sess : smtp_session)
    (hn : Option String) :
    ((smtp_set_hostname ok h (some sess) hn).2.2.2.getD sess).messages
      = sess.messages := by
  cases hn with
  | none => cases hl : sess.localhost <;> simp [smtp_set_hostname, hl]
  | some name =>
    cases ok <;> cases hl : sess.localhost <;> simp [smtp_set_hostname, strdup, hl]

theorem set_reverse_path_fields (ok : Bool) (h : Heap) (m : smtp_message)
    (mbx : Option String) :
    (((smtp_set_reverse_path ok h (some m) mbx).2.2.2).getD m).id = m.id ∧
    (((smtp_set_reverse_path ok h (some m) mbx).2.2.2).getD m).recipients
      = m.recipients := by
  cases mbx <;> cases ok <;> cases hrp : m.reverse_path_mailbox <;>
    simp [smtp_set_reverse_path, strdup, hrp]

theorem deliverby_fields (m : smtp_message) (time : Int) (mode : by_mode) (trace : Bool) :
    (((smtp_deliverby_set_mode (some m) time mode trace).2.2).getD m).id = m.id ∧
    (((smtp_deliverby_set_mode (some m) time mode trace).2.2).getD m).recipients
      = m.recipients := by
  by_cases h1 : (-999999999 ≤ time ∧ time ≤ 999999999) <;>
    by_cases h2 : (mode = .By_RETURN ∧ time ≤ 0) <;>
      simp [smtp_deliverby_set_mode, h1, h2]

/-- Every public operation preserves the ghost-journal invariant: the
message and recipient lists only ever grow at the tail, in step with the
creation journals. -/
theorem ghostInv_step (db : String → Option Nat) (op : Op) (st : State)
    (hG : GhostInv st) : GhostInv (step db op st) := by
  cases op with
  | setServer hp ok =>
    rcases hres : smtp_set_server ok db st.heap (some st.session) (some hp)
      with ⟨ret, err, h1, s1⟩
    have hmsg := set_server_messages ok db st.heap st.session hp
    rw [hres] at hmsg
    have hstep : step db (.setServer hp ok) st
        = { st with heap := h1, session := s1.getD st.session } := by
      simp [step, hres]
    rw [hstep]
    exact ghostInv_congr hmsg rfl rfl rfl hG
  | setHostname hn ok =>
    rcases hres : smtp_set_hostname ok st.heap (some st.session) hn
      with ⟨ret, err, h1, s1⟩
    have hmsg := set_hostname_messages ok st.heap st.session hn
    rw [hres] at hmsg
    have hstep : step db (.setHostname hn ok) st
        = { st with heap := h1, session := s1.getD st.session } := by
      simp [step, hres]
    rw [hstep]
    exact ghostInv_congr hmsg rfl rfl rfl hG
  | addMessage ok =>
    cases ok with
    | false =>
      have hstep : step db (.addMessage false) st = st := by
        simp [step, smtp_add_message]
      rw [hstep]; exact hG
    | true =>
      have hstep : step db (.addMessage true) st
          = { st with
                session := { st.session with
                  messages := st.session.messages ++ [{ id := st.fresh }] },
                fresh := st.fresh + 1,
                msgLog := st.msgLog ++ [st.fresh] } := by
        simp [step, smtp_add_message]
      rw [hstep]
      obtain ⟨g1, g2, g3, g4, g5, g6, g7⟩ := hG
      refine ⟨?_, ?_, ?_, ?_, g5, ?_, ?_⟩
      · show (st.session.messages ++ [({ id := st.fresh } : smtp_message)]).map
              (fun m => m.id)
            = st.msgLog ++ [st.fresh]
        simp [g1]
      · show (st.msgLog ++ [st.fresh]).Nodup
        refine nodup_of_counts (fun a => ?_)
        rw [List.count_append]
        by_cases ha : a = st.fresh
        · subst ha
          rw [count_zero_of_bounded g3]
          simp
        · have h2 := count_le_one_of_nodup g2 a
          have h3 : List.count a [st.fresh] = 0 := by
            simp [List.count_cons, ha]
          omega
      · show ∀ i ∈ st.msgLog ++ [st.fresh], i < st.fresh + 1
        intro i hi
        rcases List.mem_append.mp hi with hi | hi
        · exact Nat.lt_succ_of_lt (g3 i hi)
        · simp at hi
          omega
      · intro m2 hm2
        show m2.recipients.map (fun r => r.id)
            = (st.rcptLog.filter (fun pp => pp.1 == m2.id)).map Prod.snd
        have hm2b : m2 ∈ st.session.messages ++ [{ id := st.fresh }] := hm2
        rcases List.mem_append.mp hm2b with h2 | h2
        · exact g4 m2 h2
        · simp at h2
          subst h2
          have hfil : st.rcptLog.filter (fun pp => pp.1 == st.fresh) = [] :=
            filter_beq_nil (fun pp hpp => Nat.ne_of_lt (g7 pp hpp))
          show (([] : List smtp_recipient).map (fun r => r.id))
              = (st.rcptLog.filter (fun pp => pp.1 == st.fresh)).map Prod.snd
          simp [hfil]
      · show ∀ pp ∈ st.rcptLog, pp.2 < st.fresh + 1
        intro pp hpp
        exact Nat.lt_succ_of_lt (g6 pp hpp)
      · show ∀ pp ∈ st.rcptLog, pp.1 < st.fresh + 1
        intro pp hpp
        exact Nat.lt_succ_of_lt (g7 pp hpp)
  | setReversePath mi mbx ok =>
    cases hm : st.getMsg mi with
    | none => simpa [step, hm] using hG
    | some m =>
      rcases hres : smtp_set_reverse_path ok st.heap (some m) mbx
        with ⟨ret, err, h1, m1⟩
      have hfields := set_reverse_path_fields ok st.heap m mbx
      rw [hres] at hfields
      have hstep : step db (.setReversePath mi mbx ok) st
          = { st.putMsg mi (m1.getD m) with heap := h1 } := by
        simp [step, hm, hres]
      rw [hstep]
      exact ghost_heap_override (ghost_putMsg_same hm hfields.1 (by rw [hfields.2]) hG)
  | addRecipient mi mbx okm oks =>
    cases hm : st.getMsg mi with
    | none => simpa [step, hm] using hG
    | some m =>
      have hself : st.session.messages.set mi m = st.session.messages := set_get_self hm
      cases mbx with
      | none =>
        have hstep : step db (.addRecipient mi none okm oks) st = st := by
          simp [step, hm, smtp_add_recipient, State.putMsg, hself]
        rw [hstep]; exact hG
      | some mb =>
        cases okm with
        | false =>
          have hstep : step db (.addRecipient mi (some mb) false oks) st = st := by
            simp [step, hm, smtp_add_recipient, State.putMsg, hself]
          rw [hstep]; exact hG
        | true =>
          cases oks with
          | false =>
            have hstep : step db (.addRecipient mi (some mb) true false) st = st := by
              simp [step, hm, smtp_add_recipient, strdup, State.putMsg, hself]
            rw [hstep]; exact hG
          | true =>
            have hstep : step db (.addRecipient mi (some mb) true true) st
                = { st.putMsg mi
                      { m with recipients :=
                          m.recipients ++ [{ id := st.fresh, mailbox := some st.heap.next }] }
                    with heap := (st.heap.alloc mb).2, fresh := st.fresh + 1,
                         rcptLog := st.rcptLog ++ [(m.id, st.fresh)] } := by
              simp [step, hm, smtp_add_recipient, strdup, Heap.alloc]
            rw [hstep]
            obtain ⟨p, q, hl, hlen, hset⟩ := get?_set_decomp hm
            obtain ⟨g1, g2, g3, g4, g5, g6, g7⟩ := hG
            have hmmem : m ∈ st.session.messages := by
              rw [hl]
              exact List.mem_append_right _ (List.mem_cons_self _ _)
            have hmid : m.id ∈ st.msgLog := by
              rw [← g1]
              exact List.mem_map_of_mem _ hmmem
            have hmidlt : m.id < st.fresh := g3 m.id hmid
            have hnodup2 : ((p ++ m :: q).map (fun x => x.id)).Nodup := by
              rw [← hl, g1]
              exact g2
            have hne := id_ne_of_nodup hnodup2
            refine ⟨?_, g2, ?_, ?_, ?_, ?_, ?_⟩
            · show (st.session.messages.set mi
                  { m with recipients := m.recipients
                      ++ [{ id := st.fresh, mailbox := some st.heap.next }] }).map
                    (fun m => m.id) = st.msgLog
              rw [hset, ← g1, hl]
              simp
            · show ∀ i ∈ st.msgLog, i < st.fresh + 1
              intro i hi
              exact Nat.lt_succ_of_lt (g3 i hi)
            · intro m2 hm2
              show m2.recipients.map (fun r => r.id)
                  = ((st.rcptLog ++ [(m.id, st.fresh)]).filter
                      (fun pp => pp.1 == m2.id)).map Prod.snd
              rw [List.filter_append, List.map_append]
              have hm2b : m2 ∈ st.session.messages.set mi
                  { m with recipients := m.recipients
                      ++ [{ id := st.fresh, mailbox := some st.heap.next }] } := hm2
              rw [hset] at hm2b
              rcases List.mem_append.mp hm2b with h2 | h2
              · have hbe : (m.id == m2.id) = false :=
                  beq_eq_false_iff_ne.mpr (Ne.symm (hne.1 m2 h2))
                have hfil : ([(m.id, st.fresh)].filter (fun pp => pp.1 == m2.id)) = [] := by
                  simp [List.filter_cons, hbe]
                rw [hfil]
                simp only [List.map_nil, List.append_nil]
                exact g4 m2 (by rw [hl]; exact List.mem_append_left _ h2)
              · rcases List.mem_cons.mp h2 with rfl | h2
                · have hfil : ([(m.id, st.fresh)].filter
                      (fun pp => pp.1 == ({ m with recipients := m.recipients
                        ++ [{ id := st.fresh, mailbox := some st.heap.next }] }
                          : smtp_message).id)) = [(m.id, st.fresh)] := by
                    simp [List.filter_cons]
                  rw [hfil]
                  have hold := g4 m hmmem
                  unfold rcptOrder at hold
                  simp [hold]
                · have hbe : (m.id == m2.id) = false :=
                    beq_eq_false_iff_ne.mpr (Ne.symm (hne.2 m2 h2))
                  have hfil : ([(m.id, st.fresh)].filter (fun pp => pp.1 == m2.id)) = [] := by
                    simp [List.filter_cons, hbe]
                  rw [hfil]
                  simp only [List.map_nil, List.append_nil]
                  exact g4 m2 (by
                    rw [hl]
                    exact List.mem_append_right _ (List.mem_cons_of_mem _ h2))
            · show (List.map Prod.snd (st.rcptLog ++ [(m.id, st.fresh)])).Nodup
              rw [List.map_append]
              refine nodup_of_counts (fun a => ?_)
              rw [List.count_append]
              by_cases ha : a = st.fresh
              · subst ha
                have hz : ((st.rcptLog.map Prod.snd).count st.fresh) = 0 :=
                  count_zero_of_bounded (fun b hb => by
                    obtain ⟨pp, hpp, rfl⟩ := List.mem_map.mp hb
                    exact g6 pp hpp)
                rw [hz]
                simp
              · have h2 := count_le_one_of_nodup g5 a
                have h3 : List.count a (List.map Prod.snd [(m.id, st.fresh)]) = 0 := by
                  simp [List.count_cons, ha]
                omega
            · show ∀ pp ∈ st.rcptLog ++ [(m.id, st.fresh)], pp.2 < st.fresh + 1
              intro pp hpp
              rcases List.mem_append.mp hpp with h2 | h2
              · exact Nat.lt_succ_of_lt (g6 pp h2)
              · simp at h2
                subst h2
                exact Nat.lt_succ_self _
            · show ∀ pp ∈ st.rcptLog ++ [(m.id, st.fresh)], pp.1 < st.fresh + 1
              intro pp hpp
              rcases List.mem_append.mp hpp with h2 | h2
              · exact Nat.lt_succ_of_lt (g7 pp h2)
              · simp at h2
                subst h2
                exact Nat.lt_succ_of_lt hmidlt
  | messageResetStatus mi =>
    cases hm : st.getMsg mi with
    | none => simpa [step, hm] using hG
    | some m =>
      have hstep : step db (.messageResetStatus mi) st
          = st.putMsg mi { m with reverse_path_status := {}, message_status := {} } := by
        simp [step, hm, smtp_message_reset_status, reset_status]
      rw [hstep]
      exact ghost_putMsg_same hm rfl rfl hG
  | recipientResetStatus mi ri =>
    cases hm : st.getMsg mi with
    | none => simpa [step, State.getRcpt, hm] using hG
    | some m =>
      cases hr : m.recipients.get? ri with
      | none =>
        have hgr : st.getRcpt mi ri = none := by rw [getRcpt_eq hm]; exact hr
        simpa [step, hgr] using hG
      | some r =>
        have hgr : st.getRcpt mi ri = some r := by rw [getRcpt_eq hm]; exact hr
        have hstep : step db (.recipientResetStatus mi ri) st
            = st.putRcpt mi ri { r with status := {}, complete := false } := by
          simp [step, hgr, smtp_recipient_reset_status, reset_status]
        rw [hstep, putRcpt_eq _ hm]
        exact ghost_putMsg_same hm rfl (rcpt_set_ids hr rfl) hG
  | dsnSetRet mi flags =>
    cases hm : st.getMsg mi with
    | none => simpa [step, hm] using hG
    | some m =>
      by_cases hf : flags = ret_flags.Ret_NOTSET
      · have hstep : step db (.dsnSetRet mi flags) st
            = (st.putMsg mi { m with dsn_ret := flags }).putExt
                st.session.required_extensions := by
          simp [step, hm, smtp_dsn_set_ret, hf]
        rw [hstep]
        exact putExt_ghostInv (ghost_putMsg_same hm rfl rfl hG)
      · have hstep : step db (.dsnSetRet mi flags) st
            = (st.putMsg mi { m with dsn_ret := flags }).putExt
                (st.session.required_extensions ||| EXT_DSN) := by
          simp [step, hm, smtp_dsn_set_ret, hf]
        rw [hstep]
        exact putExt_ghostInv (ghost_putMsg_same hm rfl rfl hG)
  | dsnSetEnvid mi envid ok =>
    cases hm : st.getMsg mi with
    | none => simpa [step, hm] using hG
    | some m =>
      cases ok with
      | false =>
        have hstep : step db (.dsnSetEnvid mi envid false) st
            = { (st.putMsg mi { m with dsn_envid := none }).putExt
                  st.session.required_extensions with heap := st.heap } := by
          simp [step, hm, smtp_dsn_set_envid, strdup]
        rw [hstep]
        exact ghost_heap_override (putExt_ghostInv (ghost_putMsg_same hm rfl rfl hG))
      | true =>
        have hstep : step db (.dsnSetEnvid mi envid true) st
            = { (st.putMsg mi { m with dsn_envid := some st.heap.next }).putExt
                  (st.session.required_extensions ||| EXT_DSN)
                with heap := (st.heap.alloc envid).2 } := by
          simp [step, hm, smtp_dsn_set_envid, strdup, Heap.alloc]
        rw [hstep]
        exact ghost_heap_override (putExt_ghostInv (ghost_putMsg_same hm rfl rfl hG))
  | dsnSetNotify mi ri flags =>
    cases hm : st.getMsg mi with
    | none => simpa [step, State.getRcpt, hm] using hG
    | some m =>
      cases hr : m.recipients.get? ri with
      | none =>
        have hgr : st.getRcpt mi ri = none := by rw [getRcpt_eq hm]; exact hr
        simpa [step, hgr] using hG
      | some r =>
        have hgr : st.getRcpt mi ri = some r := by rw [getRcpt_eq hm]; exact hr
        by_cases hf : flags = Notify_NOTSET
        · have hstep : step db (.dsnSetNotify mi ri flags) st
              = (st.putRcpt mi ri { r with dsn_notify := flags }).putExt
                  st.session.required_extensions := by
            simp [step, hgr, smtp_dsn_set_notify, hf]
          rw [hstep, putRcpt_eq _ hm]
          exact putExt_ghostInv (ghost_putMsg_same hm rfl (rcpt_set_ids hr rfl) hG)
        · have hstep : step db (.dsnSetNotify mi ri flags) st
              = (st.putRcpt mi ri { r with dsn_notify := flags }).putExt
                  (st.session.required_extensions ||| EXT_DSN) := by
            simp [step, hgr, smtp_dsn_set_notify, hf]
          rw [hstep, putRcpt_eq _ hm]
          exact putExt_ghostInv (ghost_putMsg_same hm rfl (rcpt_set_ids hr rfl) hG)
  | dsnSetOrcpt mi ri atype addr ok1 ok2 =>
    cases hm : st.getMsg mi with
    | none => simpa [step, State.getRcpt, hm] using hG
    | some m =>
      cases hr : m.recipients.get? ri with
      | none =>
        have hgr : st.getRcpt mi ri = none := by rw [getRcpt_eq hm]; exact hr
        simpa [step, hgr] using hG
      | some r =>
        have hgr : st.getRcpt mi ri = some r := by rw [getRcpt_eq hm]; exact hr
        cases ok1 with
        | false =>
          have hstep : step db (.dsnSetOrcpt mi ri atype addr false ok2) st
              = { (st.putRcpt mi ri { r with dsn_addrtype := none }).putExt
                    st.session.required_extensions with heap := st.heap } := by
            simp [step, hgr, smtp_dsn_set_orcpt, strdup]
          rw [hstep, putRcpt_eq _ hm]
          exact ghost_heap_override
            (putExt_ghostInv (ghost_putMsg_same hm rfl (rcpt_set_ids hr rfl) hG))
        | true =>
          cases ok2 with
          | false =>
            have hstep : step db (.dsnSetOrcpt mi ri atype addr true false) st
                = { (st.putRcpt mi ri
                      { r with dsn_addrtype := some st.heap.next, dsn_orcpt := none }).putExt
                      st.session.required_extensions
                    with heap := ((st.heap.alloc atype).2).free st.heap.next } := by
              simp [step, hgr, smtp_dsn_set_orcpt, strdup, Heap.alloc]
            rw [hstep, putRcpt_eq _ hm]
            exact ghost_heap_override
              (putExt_ghostInv (ghost_putMsg_same hm rfl (rcpt_set_ids hr rfl) hG))
          | true =>
            have hstep : step db (.dsnSetOrcpt mi ri atype addr true true) st
                = { (st.putRcpt mi ri
                      { r with dsn_addrtype := some st.heap.next,
                               dsn_orcpt := some (st.heap.next + 1) }).putExt
                      (st.session.required_extensions ||| EXT_DSN)
                    with heap := ((st.heap.alloc atype).2.alloc addr).2 } := by
              simp [step, hgr, smtp_dsn_set_orcpt, strdup, Heap.alloc]
            rw [hstep, putRcpt_eq _ hm]
            exact ghost_heap_override
              (putExt_ghostInv (ghost_putMsg_same hm rfl (rcpt_set_ids hr rfl) hG))
  | sizeSetEstimate mi size =>
    cases hm : st.getMsg mi with
    | none => simpa [step, hm] using hG
    | some m =>
      have hstep : step db (.sizeSetEstimate mi size) st
          = st.putMsg mi { m with size_estimate := size } := by
        simp [step, hm, smtp_size_set_estimate]
      rw [hstep]
      exact ghost_putMsg_same hm rfl rfl hG
  | e8SetBody mi body =>
    cases hm : st.getMsg mi with
    | none => simpa [step, hm] using hG
    | some m =>
      by_cases hf : body = e8bitmime_body.E8bitmime_NOTSET
      · have hstep : step db (.e8SetBody mi body) st
            = (st.putMsg mi { m with e8bitmime := body }).putExt
                st.session.required_extensions := by
          simp [step, hm, smtp_8bitmime_set_body, hf]
        rw [hstep]
        exact putExt_ghostInv (ghost_putMsg_same hm rfl rfl hG)
      · have hstep : step db (.e8SetBody mi body) st
            = (st.putMsg mi { m with e8bitmime := body }).putExt
                (st.session.required_extensions ||| EXT_8BITMIME) := by
          simp [step, hm, smtp_8bitmime_set_body, hf]
        rw [hstep]
        exact putExt_ghostInv (ghost_putMsg_same hm rfl rfl hG)
  | deliverbySetMode mi time mode trace =>
    cases hm : st.getMsg mi with
    | none => simpa [step, hm] using hG
    | some m =>
      rcases hres : smtp_deliverby_set_mode (some m) time mode trace
        with ⟨ret, err, m1⟩
      have hfields := deliverby_fields m time mode trace
      rw [hres] at hfields
      have hstep : step db (.deliverbySetMode mi time mode trace) st
          = st.putMsg mi (m1.getD m) := by
        simp [step, hm, hres]
      rw [hstep]
      exact ghost_putMsg_same hm hfields.1 (by rw [hfields.2]) hG
  | setMessagecb mi cb =>
    cases hm : st.getMsg mi with
    | none => simpa [step, hm] using hG
    | some m =>
      cases cb with
      | none =>
        have hstep : step db (.setMessagecb mi none) st = st.putMsg mi m := by
          simp [step, hm, smtp_set_messagecb]
        rw [hstep]
        exact ghost_putMsg_same hm rfl rfl hG
      | some c =>
        have hstep : step db (.setMessagecb mi (some c)) st
            = st.putMsg mi { m with cb := some c } := by
          simp [step, hm, smtp_set_messagecb]
        rw [hstep]
        exact ghost_putMsg_same hm rfl rfl hG
  | setEventcb cb =>
    have hstep : step db (.setEventcb cb) st
        = { st with session := { st.session with event_cb := cb } } := by
      simp [step, smtp_set_eventcb]
    rw [hstep]
    exact ghostInv_congr rfl rfl rfl rfl hG
  | setMonitorcb cb headers =>
    have hstep : step db (.setMonitorcb cb headers) st
        = { st with session := { st.session with
              monitor_cb := cb, monitor_cb_headers := headers } } := by
      simp [step, smtp_set_monitorcb]
    rw [hstep]
    exact ghostInv_congr rfl rfl rfl rfl hG

/-!  Count-based bookkeeping for the heap invariant: replacing one segment
of the owned-address list by fresh material. -/

theorem nodup_sub_replace
    {addrs : List Nat} {next : Nat} {X M Y N F : List Nat}
    (n1 : addrs.Nodup) (n2 : ∀ a ∈ addrs, a < next)
    (n3 : (X ++ M ++ Y).Nodup) (n4 : ∀ a ∈ X ++ M ++ Y, a ∈ addrs)
    (hFd : F.Nodup) (hFge : ∀ f ∈ F, next ≤ f)
    (hM1c : ∀ a, N.count a ≤ M.count a + F.count a) :
    (X ++ N ++ Y).Nodup ∧ (∀ a ∈ X ++ N ++ Y, a ∈ addrs ++ F) := by
  constructor
  · refine nodup_of_counts (fun a => ?_)
    have hold := count_le_one_of_nodup n3 a
    rw [List.count_append, List.count_append] at hold ⊢
    have hc1 := hM1c a
    by_cases haF : a ∈ F
    · have hge : next ≤ a := hFge a haF
      have haddr : a ∉ addrs := fun hmem => absurd (n2 a hmem) (by omega)
      have hX : X.count a = 0 :=
        List.count_eq_zero.mpr (fun hx => haddr (n4 a (by simp [hx])))
      have hY : Y.count a = 0 :=
        List.count_eq_zero.mpr (fun hy => haddr (n4 a (by simp [hy])))
      have hM : M.count a = 0 :=
        List.count_eq_zero.mpr (fun hm2 => haddr (n4 a (by simp [hm2])))
      have hFc := count_le_one_of_nodup hFd a
      omega
    · have hFc : F.count a = 0 := List.count_eq_zero.mpr haF
      omega
  · intro a ha
    rw [List.mem_append]
    simp only [List.mem_append] at ha
    rcases ha with (hx | hm1) | hy
    · exact Or.inl (n4 a (by simp [hx]))
    · by_cases haM : a ∈ M
      · exact Or.inl (n4 a (by simp [haM]))
      · by_cases haF : a ∈ F
        · exact Or.inr haF
        · exfalso
          have h1 : N.count a ≠ 0 := fun h0 => (List.count_eq_zero.mp h0) hm1
          have h2 : M.count a = 0 := List.count_eq_zero.mpr haM
          have h3 : F.count a = 0 := List.count_eq_zero.mpr haF
          have := hM1c a
          omega
    · exact Or.inl (n4 a (by simp [hy]))

theorem nodup_sub_replace_free
    {addrs : List Nat} {next : Nat} {X M Y N F : List Nat} {a0 : Nat}
    (n1 : addrs.Nodup) (n2 : ∀ a ∈ addrs, a < next)
    (n3 : (X ++ (a0 :: M) ++ Y).Nodup) (n4 : ∀ a ∈ X ++ (a0 :: M) ++ Y, a ∈ addrs)
    (hFd : F.Nodup) (hFge : ∀ f ∈ F, next ≤ f)
    (hM1c : ∀ a, N.count a ≤ M.count a + F.count a) :
    (X ++ N ++ Y).Nodup ∧
    (∀ a ∈ X ++ N ++ Y, a ∈ (addrs.filter (fun x => x != a0)) ++ F) := by
  have hXa0 : X.count a0 = 0 ∧ M.count a0 = 0 ∧ Y.count a0 = 0 := by
    have hold := count_le_one_of_nodup n3 a0
    rw [List.count_append, List.count_append, List.count_cons_self] at hold
    refine ⟨by omega, by omega, by omega⟩
  constructor
  · refine nodup_of_counts (fun a => ?_)
    have hold := count_le_one_of_nodup n3 a
    rw [List.count_append, List.count_append, List.count_cons] at hold
    rw [List.count_append, List.count_append]
    have hc1 := hM1c a
    by_cases haF : a ∈ F
    · have hge : next ≤ a := hFge a haF
      have haddr : a ∉ addrs := fun hmem => absurd (n2 a hmem) (by omega)
      have hX : X.count a = 0 :=
        List.count_eq_zero.mpr (fun hx => haddr (n4 a (by simp [hx])))
      have hY : Y.count a = 0 :=
        List.count_eq_zero.mpr (fun hy => haddr (n4 a (by simp [hy])))
      have hM : M.count a = 0 :=
        List.count_eq_zero.mpr (fun hm2 => haddr (n4 a (by simp [hm2])))
      have hFc := count_le_one_of_nodup hFd a
      omega
    · have hFc : F.count a = 0 := List.count_eq_zero.mpr haF
      omega
  · intro a ha
    rw [List.mem_append]
    have hne0 : ∀ b, b ∈ X ∨ b ∈ M ∨ b ∈ Y → b ≠ a0 := by
      rintro b (hb | hb | hb) rfl
      · exact (List.count_eq_zero.mp hXa0.1) hb
      · exact (List.count_eq_zero.mp hXa0.2.1) hb
      · exact (List.count_eq_zero.mp hXa0.2.2) hb
    have hmemaddr : ∀ b, b ∈ X ∨ b ∈ M ∨ b ∈ Y → b ∈ addrs := by
      rintro b (hb | hb | hb)
      · exact n4 b (by simp [hb])
      · exact n4 b (by simp [hb])
      · exact n4 b (by simp [hb])
    simp only [List.mem_append] at ha
    rcases ha with (hx | hm1) | hy
    · exact Or.inl (mem_filter_ne.mpr ⟨hmemaddr a (Or.inl hx), hne0 a (Or.inl hx)⟩)
    · by_cases haM : a ∈ M
      · exact Or.inl (mem_filter_ne.mpr
          ⟨hmemaddr a (Or.inr (Or.inl haM)), hne0 a (Or.inr (Or.inl haM))⟩)
      · by_cases haF : a ∈ F
        · exact Or.inr haF
        · exfalso
          have h1 : N.count a ≠ 0 := fun h0 => (List.count_eq_zero.mp h0) hm1
          have h2 : M.count a = 0 := List.count_eq_zero.mpr haM
          have h3 : F.count a = 0 := List.count_eq_zero.mpr haF
          have := hM1c a
          omega
    · exact Or.inl (mem_filter_ne.mpr ⟨hmemaddr a (Or.inr (Or.inr hy)), hne0 a (Or.inr (Or.inr hy))⟩)

theorem heap_alloc_inv {h : Heap} (n1 : h.addrs.Nodup)
    (n2 : ∀ a ∈ h.addrs, a < h.next) (s : String) :
    ((h.alloc s).2.addrs.Nodup) ∧ (∀ a ∈ (h.alloc s).2.addrs, a < (h.alloc s).2.next) := by
  rw [Heap.alloc_addrs]
  constructor
  · refine nodup_of_counts (fun a => ?_)
    rw [List.count_append]
    by_cases ha : a = h.next
    · subst ha
      rw [count_zero_of_bounded n2]
      simp
    · have h1 := count_le_one_of_nodup n1 a
      have h2 : List.count a [h.next] = 0 := by simp [List.count_cons, ha]
      omega
  · intro a ha
    show a < h.next + 1
    rcases List.mem_append.mp ha with h2 | h2
    · exact Nat.lt_succ_of_lt (n2 a h2)
    · simp at h2
      subst h2
      exact Nat.lt_succ_self _

theorem heap_free_inv {h : Heap} (n1 : h.addrs.Nodup)
    (n2 : ∀ a ∈ h.addrs, a < h.next) (a0 : Addr) :
    ((h.free a0).addrs.Nodup) ∧ (∀ a ∈ (h.free a0).addrs, a < (h.free a0).next) := by
  rw [Heap.free_addrs]
  refine ⟨n1.filter _, fun a ha => ?_⟩
  show a < h.next
  exact n2 a (mem_filter_ne.mp ha).1

theorem owned_lt_next {st : State} (hH : HeapInv st) :
    ∀ a ∈ sessionOwned st.session, a < st.heap.next :=
  fun a ha => hH.2.1 a (hH.2.2.2 a ha)

theorem deliverby_owned (m : smtp_message) (time : Int) (mode : by_mode) (trace : Bool) :
    messageOwned (((smtp_deliverby_set_mode (some m) time mode trace).2.2).getD m)
      = messageOwned m := by
  by_cases h1 : (-999999999 ≤ time ∧ time ≤ 999999999) <;>
    by_cases h2 : (mode = .By_RETURN ∧ time ≤ 0) <;>
      simp [smtp_deliverby_set_mode, h1, h2, messageOwned]

/-- Every public operation whose allocations all succeed preserves the heap
invariant: owned addresses stay pairwise distinct and live. -/
theorem heapInv_step (db : String → Option Nat) (op : Op) (st : State)
    (hok : op.allocsOk = true) (hH : HeapInv st) : HeapInv (step db op st) := by
  obtain ⟨n1, n2, n3, n4⟩ := hH
  cases op with
  | setServer hp ok =>
    obtain rfl : ok = true := hok
    rcases hq : splitColon hp.data with ⟨hostPart, service⟩
    have howned : sessionOwned st.session
        = [] ++ st.session.host.toList
          ++ (st.session.localhost.toList
              ++ (st.session.messages.map messageOwned).flatten) := by
      simp [sessionOwned]
    have hrepl := nodup_sub_replace (N := [st.heap.next]) (F := [st.heap.next])
      n1 n2 (by rw [← howned]; exact n3) (fun a ha => n4 a (by rw [howned]; exact ha))
      (List.nodup_singleton _) (by simp)
      (fun a => Nat.le_add_left _ _)
    have hbase : ∀ (P : Int),
        HeapInv { st with
          heap := ((st.heap.alloc hp).2).write st.heap.next (String.mk hostPart),
          session := { st.session with port := P, host := some st.heap.next } } := by
      intro P
      have howned1 : sessionOwned { st.session with port := P, host := some st.heap.next }
          = [] ++ [st.heap.next]
            ++ (st.session.localhost.toList
                ++ (st.session.messages.map messageOwned).flatten) := by
        simp [sessionOwned]
      refine ⟨?_, ?_, ?_, ?_⟩
      · show ((((st.heap.alloc hp).2).write st.heap.next (String.mk hostPart)).addrs).Nodup
        rw [Heap.write_addrs]
        exact (heap_alloc_inv n1 n2 hp).1
      · intro a ha
        rw [Heap.write_addrs] at ha
        exact (heap_alloc_inv n1 n2 hp).2 a ha
      · show (sessionOwned { st.session with port := P, host := some st.heap.next }).Nodup
        rw [howned1]
        exact hrepl.1
      · intro a ha
        rw [howned1] at ha
        show a ∈ (((st.heap.alloc hp).2).write st.heap.next (String.mk hostPart)).addrs
        rw [Heap.write_addrs, Heap.alloc_addrs]
        exact hrepl.2 a ha
    cases service with
    | none =>
      have hstep : step db (.setServer hp true) st
          = { st with
                heap := ((st.heap.alloc hp).2).write st.heap.next (String.mk hostPart),
                session := { st.session with port := 587, host := some st.heap.next } } := by
        simp [step, smtp_set_server, strdup, Heap.alloc, hq]
      rw [hstep]
      exact hbase 587
    | some sv =>
      by_cases hd : headIsDigit sv
      · have hstep : step db (.setServer hp true) st
            = { st with
                  heap := ((st.heap.alloc hp).2).write st.heap.next (String.mk hostPart),
                  session :=
                    { st.session with port := strtol10 sv, host := some st.heap.next } } := by
          simp [step, smtp_set_server, strdup, Heap.alloc, hq, hd]
        rw [hstep]
        exact hbase (strtol10 sv)
      · cases hdb : db (String.mk sv) with
        | some prt =>
          have hstep : step db (.setServer hp true) st
              = { st with
                    heap := ((st.heap.alloc hp).2).write st.heap.next (String.mk hostPart),
                    session :=
                      { st.session with port := (prt : Int), host := some st.heap.next } } := by
            simp [step, smtp_set_server, strdup, Heap.alloc, hq, hd, hdb]
          rw [hstep]
          exact hbase (prt : Int)
        | none =>
          have hfnm : st.heap.next ∉ st.heap.addrs :=
            fun hmem => lt_irrefl _ (n2 _ hmem)
          have hstep : step db (.setServer hp true) st
              = { st with
                    heap := (((st.heap.alloc hp).2).write st.heap.next
                        (String.mk hostPart)).free st.heap.next,
                    session := st.session } := by
            simp [step, smtp_set_server, strdup, Heap.alloc, hq, hd, hdb]
          rw [hstep]
          have haddr : ((((st.heap.alloc hp).2).write st.heap.next
              (String.mk hostPart)).free st.heap.next).addrs = st.heap.addrs := by
            rw [Heap.free_addrs, Heap.write_addrs, Heap.alloc_addrs, List.filter_append,
              filter_ne_of_not_mem hfnm]
            simp
          refine ⟨?_, ?_, n3, ?_⟩
          · show ((((st.heap.alloc hp).2).write st.heap.next
                (String.mk hostPart)).free st.heap.next).addrs.Nodup
            rw [haddr]
            exact n1
          · intro a ha
            rw [haddr] at ha
            show a < st.heap.next + 1
            exact Nat.lt_succ_of_lt (n2 a ha)
          · intro a ha
            show a ∈ ((((st.heap.alloc hp).2).write st.heap.next
                (String.mk hostPart)).free st.heap.next).addrs
            rw [haddr]
            exact n4 a ha
  | setHostname hn ok =>
    obtain rfl : ok = true := hok
    cases hl : st.session.localhost with
    | none =>
      cases hn with
      | none =>
        have hstep : step db (.setHostname none true) st
            = { st with session := { st.session with localhost := none } } := by
          simp [step, smtp_set_hostname, hl]
        rw [hstep]
        refine heapInv_congr (s := st) rfl ?_ ⟨n1, n2, n3, n4⟩
        simp [sessionOwned, hl]
      | some name =>
        have hstep : step db (.setHostname (some name) true) st
            = { st with
                  heap := (st.heap.alloc name).2,
                  session := { st.session with localhost := some st.heap.next } } := by
          simp [step, smtp_set_hostname, strdup, Heap.alloc, hl]
        rw [hstep]
        have howned : sessionOwned st.session
            = st.session.host.toList ++ ([] : List Addr)
              ++ (st.session.messages.map messageOwned).flatten := by
          simp [sessionOwned, hl]
        have hrepl := nodup_sub_replace (N := [st.heap.next]) (F := [st.heap.next])
          n1 n2 (by rw [← howned]; exact n3) (fun a ha => n4 a (by rw [howned]; exact ha))
          (List.nodup_singleton _) (by simp)
          (fun a => Nat.le_add_left _ _)
        refine ⟨(heap_alloc_inv n1 n2 name).1, (heap_alloc_inv n1 n2 name).2, ?_, ?_⟩
        · show (sessionOwned { st.session with localhost := some st.heap.next }).Nodup
          rw [show sessionOwned { st.session with localhost := some st.heap.next }
              = st.session.host.toList ++ [st.heap.next]
                ++ (st.session.messages.map messageOwned).flatten
            from by simp [sessionOwned]]
          exact hrepl.1
        · intro a ha
          rw [show sessionOwned { st.session with localhost := some st.heap.next }
              = st.session.host.toList ++ [st.heap.next]
                ++ (st.session.messages.map messageOwned).flatten
            from by simp [sessionOwned]] at ha
          show a ∈ (st.heap.alloc name).2.addrs
          rw [Heap.alloc_addrs]
          exact hrepl.2 a ha
    | some a0 =>
      have howned : sessionOwned st.session
          = st.session.host.toList ++ (a0 :: ([] : List Addr))
            ++ (st.session.messages.map messageOwned).flatten := by
        simp [sessionOwned, hl]
      cases hn with
      | none =>
        have hstep : step db (.setHostname none true) st
            = { st with
                  heap := st.heap.free a0,
                  session := { st.session with localhost := none } } := by
          simp [step, smtp_set_hostname, hl]
        rw [hstep]
        have hrepl := nodup_sub_replace_free (N := ([] : List Addr)) (F := ([] : List Addr))
          n1 n2 (by rw [← howned]; exact n3) (fun a ha => n4 a (by rw [howned]; exact ha))
          List.nodup_nil (by simp) (by simp)
        refine ⟨(heap_free_inv n1 n2 a0).1, (heap_free_inv n1 n2 a0).2, ?_, ?_⟩
        · show (sessionOwned { st.session with localhost := none }).Nodup
          rw [show sessionOwned { st.session with localhost := none }
              = st.session.host.toList ++ ([] : List Addr)
                ++ (st.session.messages.map messageOwned).flatten
            from by simp [sessionOwned]]
          exact hrepl.1
        · intro a ha
          rw [show sessionOwned { st.session with localhost := none }
              = st.session.host.toList ++ ([] : List Addr)
                ++ (st.session.messages.map messageOwned).flatten
            from by simp [sessionOwned]] at ha
          show a ∈ (st.heap.free a0).addrs
          rw [Heap.free_addrs]
          have := hrepl.2 a ha
          simpa using this
      | some name =>
        have hstep : step db (.setHostname (some name) true) st
            = { st with
                  heap := ((st.heap.free a0).alloc name).2,
                  session := { st.session with localhost := some st.heap.next } } := by
          simp [step, smtp_set_hostname, strdup, Heap.alloc, Heap.free, hl]
        rw [hstep]
        have hrepl := nodup_sub_replace_free (N := [st.heap.next]) (F := [st.heap.next])
          n1 n2 (by rw [← howned]; exact n3) (fun a ha => n4 a (by rw [howned]; exact ha))
          (List.nodup_singleton _) (by simp)
          (fun a => Nat.le_add_left _ _)
        have hfi := heap_free_inv n1 n2 a0
        have hai := heap_alloc_inv hfi.1 hfi.2 name
        refine ⟨hai.1, hai.2, ?_, ?_⟩
        · show (sessionOwned { st.session with localhost := some st.heap.next }).Nodup
          rw [show sessionOwned { st.session with localhost := some st.heap.next }
              = st.session.host.toList ++ [st.heap.next]
                ++ (st.session.messages.map messageOwned).flatten
            from by simp [sessionOwned]]
          exact hrepl.1
        · intro a ha
          rw [show sessionOwned { st.session with localhost := some st.heap.next }
              = st.session.host.toList ++ [st.heap.next]
                ++ (st.session.messages.map messageOwned).flatten
            from by simp [sessionOwned]] at ha
          show a ∈ ((st.heap.free a0).alloc name).2.addrs
          rw [Heap.alloc_addrs, Heap.free_addrs]
          exact hrepl.2 a ha
  | addMessage ok =>
    obtain rfl : ok = true := hok
    have hstep : step db (.addMessage true) st
        = { st with
              session := { st.session with
                messages := st.session.messages ++ [{ id := st.fresh }] },
              fresh := st.fresh + 1,
              msgLog := st.msgLog ++ [st.fresh] } := by
      simp [step, smtp_add_message]
    rw [hstep]
    refine heapInv_congr (s := st) rfl ?_ ⟨n1, n2, n3, n4⟩
    simp [sessionOwned, messageOwned]
  | setReversePath mi mbx ok =>
    obtain rfl : ok = true := hok
    cases hm : st.getMsg mi with
    | none => simpa [step, hm] using ⟨n1, n2, n3, n4⟩
    | some m =>
      obtain ⟨p, q, hl, hlen, hset⟩ := get?_set_decomp hm
      have hX : sessionOwned st.session
          = (st.session.host.toList ++ st.session.localhost.toList
              ++ (p.map messageOwned).flatten)
            ++ messageOwned m ++ (q.map messageOwned).flatten :=
        sessionOwned_decomp hl
      cases hrp : m.reverse_path_mailbox with
      | none =>
        cases mbx with
        | none =>
          have hstep : step db (.setReversePath mi none true) st
              = { st.putMsg mi { m with reverse_path_mailbox := none }
                  with heap := st.heap } := by
            simp [step, hm, smtp_set_reverse_path, hrp]
          rw [hstep]
          have h1 := heap_putMsg_same hm
            (w := { m with reverse_path_mailbox := none })
            (by simp [messageOwned, hrp]) ⟨n1, n2, n3, n4⟩
          exact heapInv_congr rfl rfl h1
        | some s =>
          have hstep : step db (.setReversePath mi (some s) true) st
              = { st.putMsg mi { m with reverse_path_mailbox := some st.heap.next }
                  with heap := (st.heap.alloc s).2 } := by
            simp [step, hm, smtp_set_reverse_path, strdup, Heap.alloc, hrp]
          rw [hstep]
          have hmow : messageOwned m
              = (m.recipients.map recipientOwned).flatten ++ m.dsn_envid.toList := by
            simp [messageOwned, hrp]
          have hmow1 : messageOwned { m with reverse_path_mailbox := some st.heap.next }
              = st.heap.next
                  :: ((m.recipients.map recipientOwned).flatten ++ m.dsn_envid.toList) := by
            simp [messageOwned]
          have hmsgs : (st.putMsg mi
              { m with reverse_path_mailbox := some st.heap.next }).session.messages
              = p ++ { m with reverse_path_mailbox := some st.heap.next } :: q := by
            simp [State.putMsg, hset]
          have hX1 : sessionOwned (st.putMsg mi
              { m with reverse_path_mailbox := some st.heap.next }).session
              = (st.session.host.toList ++ st.session.localhost.toList
                  ++ (p.map messageOwned).flatten)
                ++ (st.heap.next
                    :: ((m.recipients.map recipientOwned).flatten ++ m.dsn_envid.toList))
                ++ (q.map messageOwned).flatten := by
            rw [sessionOwned_decomp hmsgs, hmow1]
            simp [State.putMsg]
          have hrepl := nodup_sub_replace
            (M := messageOwned m)
            (N := st.heap.next
              :: ((m.recipients.map recipientOwned).flatten ++ m.dsn_envid.toList))
            (F := [st.heap.next])
            n1 n2 (by rw [← hX]; exact n3) (fun a ha => n4 a (by rw [hX]; exact ha))
            (List.nodup_singleton _) (by simp)
            (fun a => by
              rw [hmow]
              simp [List.count_cons, List.count_append])
          refine ⟨(heap_alloc_inv n1 n2 s).1, (heap_alloc_inv n1 n2 s).2, ?_, ?_⟩
          · show (sessionOwned _).Nodup
            rw [hX1]
            exact hrepl.1
          · intro a ha
            rw [hX1] at ha
            show a ∈ (st.heap.alloc s).2.addrs
            rw [Heap.alloc_addrs]
            exact hrepl.2 a ha
      | some a0 =>
        have hmow : messageOwned m
            = a0 :: ((m.recipients.map recipientOwned).flatten ++ m.dsn_envid.toList) := by
          simp [messageOwned, hrp]
        cases mbx with
        | none =>
          have hstep : step db (.setReversePath mi none true) st
              = { st.putMsg mi { m with reverse_path_mailbox := none }
                  with heap := st.heap.free a0 } := by
            simp [step, hm, smtp_set_reverse_path, hrp]
          rw [hstep]
          have hmow1 : messageOwned { m with reverse_path_mailbox := none }
              = (m.recipients.map recipientOwned).flatten ++ m.dsn_envid.toList := by
            simp [messageOwned]
          have hmsgs : (st.putMsg mi
              { m with reverse_path_mailbox := none }).session.messages
              = p ++ { m with reverse_path_mailbox := none } :: q := by
            simp [State.putMsg, hset]
          have hX1 : sessionOwned (st.putMsg mi
              { m with reverse_path_mailbox := none }).session
              = (st.session.host.toList ++ st.session.localhost.toList
                  ++ (p.map messageOwned).flatten)
                ++ ((m.recipients.map recipientOwned).flatten ++ m.dsn_envid.toList)
                ++ (q.map messageOwned).flatten := by
            rw [sessionOwned_decomp hmsgs, hmow1]
            simp [State.putMsg]
          have hrepl := nodup_sub_replace_free
            (M := (m.recipients.map recipientOwned).flatten ++ m.dsn_envid.toList)
            (N := (m.recipients.map recipientOwned).flatten ++ m.dsn_envid.toList)
            (F := ([] : List Addr))
            n1 n2 (by rw [← hmow, ← hX]; exact n3)
            (fun a ha => n4 a (by rw [hX, hmow]; exact ha))
            List.nodup_nil (by simp) (by simp)
          refine ⟨(heap_free_inv n1 n2 a0).1, (heap_free_inv n1 n2 a0).2, ?_, ?_⟩
          · show (sessionOwned _).Nodup
            rw [hX1]
            exact hrepl.1
          · intro a ha
            rw [hX1] at ha
            show a ∈ (st.heap.free a0).addrs
            rw [Heap.free_addrs]
            have := hrepl.2 a ha
            simpa using this
        | some s =>
          have hstep : step db (.setReversePath mi (some s) true) st
              = { st.putMsg mi { m with reverse_path_mailbox := some st.heap.next }
                  with heap := ((st.heap.free a0).alloc s).2 } := by
            simp [step, hm, smtp_set_reverse_path, strdup, Heap.alloc, Heap.free, hrp]
          rw [hstep]
          have hmow1 : messageOwned { m with reverse_path_mailbox := some st.heap.next }
              = st.heap.next
                  :: ((m.recipients.map recipientOwned).flatten ++ m.dsn_envid.toList) := by
            simp [messageOwned]
          have hmsgs : (st.putMsg mi
              { m with reverse_path_mailbox := some st.heap.next }).session.messages
              = p ++ { m with reverse_path_mailbox := some st.heap.next } :: q := by
            simp [State.putMsg, hset]
          have hX1 : sessionOwned (st.putMsg mi
              { m with reverse_path_mailbox := some st.heap.next }).session
              = (st.session.host.toList ++ st.session.localhost.toList
                  ++ (p.map messageOwned).flatten)
                ++ (st.heap.next
                    :: ((m.recipients.map recipientOwned).flatten ++ m.dsn_envid.toList))
                ++ (q.map messageOwned).flatten := by
            rw [sessionOwned_decomp hmsgs, hmow1]
            simp [State.putMsg]
          have hrepl := nodup_sub_replace_free
            (M := (m.recipients.map recipientOwned).flatten ++ m.dsn_envid.toList)
            (N := st.heap.next
              :: ((m.recipients.map recipientOwned).flatten ++ m.dsn_envid.toList))
            (F := [st.heap.next])
            n1 n2 (by rw [← hmow, ← hX]; exact n3)
            (fun a ha => n4 a (by rw [hX, hmow]; exact ha))
            (List.nodup_singleton _) (by simp)
            (fun a => by
              simp [List.count_cons, List.count_append])
          have hfi := heap_free_inv n1 n2 a0
          have hai := heap_alloc_inv hfi.1 hfi.2 s
          refine ⟨hai.1, hai.2, ?_, ?_⟩
          · show (sessionOwned _).Nodup
            rw [hX1]
            exact hrepl.1
          · intro a ha
            rw [hX1] at ha
            show a ∈ ((st.heap.free a0).alloc s).2.addrs
            rw [Heap.alloc_addrs, Heap.free_addrs]
            exact hrepl.2 a ha
  | addRecipient mi mbx okm oks =>
    have hok2 : okm = true ∧ oks = true := by
      have : (okm && oks) = true := hok
      simpa using this
    obtain ⟨rfl, rfl⟩ := hok2
    cases hm : st.getMsg mi with
    | none => simpa [step, hm] using ⟨n1, n2, n3, n4⟩
    | some m =>
      cases mbx with
      | none =>
        have hself : st.session.messages.set mi m = st.session.messages := set_get_self hm
        have hstep : step db (.addRecipient mi none true true) st = st := by
          simp [step, hm, smtp_add_recipient, State.putMsg, hself]
        rw [hstep]
        exact ⟨n1, n2, n3, n4⟩
      | some mb =>
        have hstep : step db (.addRecipient mi (some mb) true true) st
            = { st.putMsg mi
                  { m with recipients := m.recipients
                      ++ [{ id := st.fresh, mailbox := some st.heap.next }] }
                with heap := (st.heap.alloc mb).2, fresh := st.fresh + 1,
                     rcptLog := st.rcptLog ++ [(m.id, st.fresh)] } := by
          simp [step, hm, smtp_add_recipient, strdup, Heap.alloc]
        rw [hstep]
        obtain ⟨p, q, hl, hlen, hset⟩ := get?_set_decomp hm
        have hX : sessionOwned st.session
            = (st.session.host.toList ++ st.session.localhost.toList
                ++ (p.map messageOwned).flatten)
              ++ messageOwned m ++ (q.map messageOwned).flatten :=
          sessionOwned_decomp hl
        have hmsgs : (st.putMsg mi
            { m with recipients := m.recipients
                ++ [{ id := st.fresh, mailbox := some st.heap.next }] }).session.messages
            = p ++ { m with recipients := m.recipients
                ++ [{ id := st.fresh, mailbox := some st.heap.next }] } :: q := by
          simp [State.putMsg, hset]
        have hX1 : sessionOwned (st.putMsg mi
            { m with recipients := m.recipients
                ++ [{ id := st.fresh, mailbox := some st.heap.next }] }).session
            = (st.session.host.toList ++ st.session.localhost.toList
                ++ (p.map messageOwned).flatten)
              ++ messageOwned { m with recipients := m.recipients
                  ++ [{ id := st.fresh, mailbox := some st.heap.next }] }
              ++ (q.map messageOwned).flatten := by
          rw [sessionOwned_decomp hmsgs]
          simp [State.putMsg]
        have hrepl := nodup_sub_replace
          (M := messageOwned m)
          (N := messageOwned { m with recipients := m.recipients
              ++ [{ id := st.fresh, mailbox := some st.heap.next }] })
          (F := [st.heap.next])
          n1 n2 (by rw [← hX]; exact n3) (fun a ha => n4 a (by rw [hX]; exact ha))
          (List.nodup_singleton _) (by simp)
          (fun a => by
            simp [messageOwned, recipientOwned, List.count_append, List.count_cons]
            omega)
        refine ⟨(heap_alloc_inv n1 n2 mb).1, (heap_alloc_inv n1 n2 mb).2, ?_, ?_⟩
        · show (sessionOwned _).Nodup
          rw [hX1]
          exact hrepl.1
        · intro a ha
          rw [hX1] at ha
          show a ∈ (st.heap.alloc mb).2.addrs
          rw [Heap.alloc_addrs]
          exact hrepl.2 a ha
  | messageResetStatus mi =>
    cases hm : st.getMsg mi with
    | none => simpa [step, hm] using ⟨n1, n2, n3, n4⟩
    | some m =>
      have hstep : step db (.messageResetStatus mi) st
          = st.putMsg mi { m with reverse_path_status := {}, message_status := {} } := by
        simp [step, hm, smtp_message_reset_status, reset_status]
      rw [hstep]
      exact heap_putMsg_same hm rfl ⟨n1, n2, n3, n4⟩
  | recipientResetStatus mi ri =>
    cases hm : st.getMsg mi with
    | none => simpa [step, State.getRcpt, hm] using ⟨n1, n2, n3, n4⟩
    | some m =>
      cases hr : m.recipients.get? ri with
      | none =>
        have hgr : st.getRcpt mi ri = none := by rw [getRcpt_eq hm]; exact hr
        simpa [step, hgr] using ⟨n1, n2, n3, n4⟩
      | some r =>
        have hgr : st.getRcpt mi ri = some r := by rw [getRcpt_eq hm]; exact hr
        have hstep : step db (.recipientResetStatus mi ri) st
            = st.putRcpt mi ri { r with status := {}, complete := false } := by
          simp [step, hgr, smtp_recipient_reset_status, reset_status]
        rw [hstep, putRcpt_eq _ hm]
        exact heap_putMsg_same hm (rcpt_set_owned hr rfl) ⟨n1, n2, n3, n4⟩
  | dsnSetRet mi flags =>
    cases hm : st.getMsg mi with
    | none => simpa [step, hm] using ⟨n1, n2, n3, n4⟩
    | some m =>
      by_cases hf : flags = ret_flags.Ret_NOTSET
      · have hstep : step db (.dsnSetRet mi flags) st
            = (st.putMsg mi { m with dsn_ret := flags }).putExt
                st.session.required_extensions := by
          simp [step, hm, smtp_dsn_set_ret, hf]
        rw [hstep]
        exact putExt_heapInv (heap_putMsg_same hm rfl ⟨n1, n2, n3, n4⟩)
      · have hstep : step db (.dsnSetRet mi flags) st
            = (st.putMsg mi { m with dsn_ret := flags }).putExt
                (st.session.required_extensions ||| EXT_DSN) := by
          simp [step, hm, smtp_dsn_set_ret, hf]
        rw [hstep]
        exact putExt_heapInv (heap_putMsg_same hm rfl ⟨n1, n2, n3, n4⟩)
  | dsnSetEnvid mi envid ok =>
    obtain rfl : ok = true := hok
    cases hm : st.getMsg mi with
    | none => simpa [step, hm] using ⟨n1, n2, n3, n4⟩
    | some m =>
      have hstep : step db (.dsnSetEnvid mi envid true) st
          = { (st.putMsg mi { m with dsn_envid := some st.heap.next }).putExt
                (st.session.required_extensions ||| EXT_DSN)
              with heap := (st.heap.alloc envid).2 } := by
        simp [step, hm, smtp_dsn_set_envid, strdup, Heap.alloc]
      rw [hstep]
      obtain ⟨p, q, hl, hlen, hset⟩ := get?_set_decomp hm
      have hX : sessionOwned st.session
          = (st.session.host.toList ++ st.session.localhost.toList
              ++ (p.map messageOwned).flatten)
            ++ messageOwned m ++ (q.map messageOwned).flatten :=
        sessionOwned_decomp hl
      have hmsgs : (st.putMsg mi { m with dsn_envid := some st.heap.next }).session.messages
          = p ++ { m with dsn_envid := some st.heap.next } :: q := by
        simp [State.putMsg, hset]
      have hX1 : sessionOwned ((st.putMsg mi
          { m with dsn_envid := some st.heap.next }).putExt
            (st.session.required_extensions ||| EXT_DSN)).session
          = (st.session.host.toList ++ st.session.localhost.toList
              ++ (p.map messageOwned).flatten)
            ++ messageOwned { m with dsn_envid := some st.heap.next }
            ++ (q.map messageOwned).flatten := by
        show sessionOwned (st.putMsg mi
          { m with dsn_envid := some st.heap.next }).session = _
        rw [sessionOwned_decomp hmsgs]
        simp [State.putMsg]
      have hrepl := nodup_sub_replace
        (M := messageOwned m)
        (N := messageOwned { m with dsn_envid := some st.heap.next })
        (F := [st.heap.next])
        n1 n2 (by rw [← hX]; exact n3) (fun a ha => n4 a (by rw [hX]; exact ha))
        (List.nodup_singleton _) (by simp)
        (fun a => by
          simp [messageOwned, List.count_append, List.count_cons]
          omega)
      refine ⟨(heap_alloc_inv n1 n2 envid).1, (heap_alloc_inv n1 n2 envid).2, ?_, ?_⟩
      · show (sessionOwned _).Nodup
        rw [hX1]
        exact hrepl.1
      · intro a ha
        rw [hX1] at ha
        show a ∈ (st.heap.alloc envid).2.addrs
        rw [Heap.alloc_addrs]
        exact hrepl.2 a ha
  | dsnSetNotify mi ri flags =>
    cases hm : st.getMsg mi with
    | none => simpa [step, State.getRcpt, hm] using ⟨n1, n2, n3, n4⟩
    | some m =>
      cases hr : m.recipients.get? ri with
      | none =>
        have hgr : st.getRcpt mi ri = none := by rw [getRcpt_eq hm]; exact hr
        simpa [step, hgr] using ⟨n1, n2, n3, n4⟩
      | some r =>
        have hgr : st.getRcpt mi ri = some r := by rw [getRcpt_eq hm]; exact hr
        by_cases hf : flags = Notify_NOTSET
        · have hstep : step db (.dsnSetNotify mi ri flags) st
              = (st.putRcpt mi ri { r with dsn_notify := flags }).putExt
                  st.session.required_extensions := by
            simp [step, hgr, smtp_dsn_set_notify, hf]
          rw [hstep, putRcpt_eq _ hm]
          exact putExt_heapInv
            (heap_putMsg_same hm (rcpt_set_owned hr rfl) ⟨n1, n2, n3, n4⟩)
        · have hstep : step db (.dsnSetNotify mi ri flags) st
              = (st.putRcpt mi ri { r with dsn_notify := flags }).putExt
                  (st.session.required_extensions ||| EXT_DSN) := by
            simp [step, hgr, smtp_dsn_set_notify, hf]
          rw [hstep, putRcpt_eq _ hm]
          exact putExt_heapInv
            (heap_putMsg_same hm (rcpt_set_owned hr rfl) ⟨n1, n2, n3, n4⟩)
  | dsnSetOrcpt mi ri atype addr ok1 ok2 =>
    have hok2 : ok1 = true ∧ ok2 = true := by
      have h : (ok1 && ok2) = true := hok
      simpa using h
    obtain ⟨rfl, rfl⟩ := hok2
    cases hm : st.getMsg mi with
    | none => simpa [step, State.getRcpt, hm] using ⟨n1, n2, n3, n4⟩
    | some m =>
      cases hr : m.recipients.get? ri with
      | none =>
        have hgr : st.getRcpt mi ri = none := by rw [getRcpt_eq hm]; exact hr
        simpa [step, hgr] using ⟨n1, n2, n3, n4⟩
      | some r =>
        have hgr : st.getRcpt mi ri = some r := by rw [getRcpt_eq hm]; exact hr
        obtain ⟨r1, hr1⟩ : ∃ r1 : smtp_recipient,
            r1 = { r with dsn_addrtype := some st.heap.next,
                          dsn_orcpt := some (st.heap.next + 1) } := ⟨_, rfl⟩
        obtain ⟨m1, hm1⟩ : ∃ m1 : smtp_message,
            m1 = { m with recipients := m.recipients.set ri r1 } := ⟨_, rfl⟩
        have hstep : step db (.dsnSetOrcpt mi ri atype addr true true) st
            = { (st.putRcpt mi ri r1).putExt (st.session.required_extensions ||| EXT_DSN)
                with heap := ((st.heap.alloc atype).2.alloc addr).2 } := by
          rw [hr1]
          simp [step, hgr, smtp_dsn_set_orcpt, strdup, Heap.alloc]
        rw [hstep, putRcpt_eq _ hm, ← hm1]
        obtain ⟨p, q, hl, hlen, hset⟩ := get?_set_decomp hm
        obtain ⟨u, v, hlr, hlenr, hsetr⟩ := get?_set_decomp hr
        have hX : sessionOwned st.session
            = ((st.session.host.toList ++ st.session.localhost.toList
                  ++ (p.map messageOwned).flatten)
                ++ (m.reverse_path_mailbox.toList ++ (u.map recipientOwned).flatten))
              ++ recipientOwned r
              ++ (((v.map recipientOwned).flatten ++ m.dsn_envid.toList)
                  ++ (q.map messageOwned).flatten) := by
          rw [sessionOwned_decomp hl, messageOwned_decomp hlr]
          simp [List.append_assoc]
        have hmsgs : (st.putMsg mi m1).session.messages = p ++ m1 :: q := by
          simp [State.putMsg, hset]
        have hrc : m1.recipients = u ++ r1 :: v := by
          rw [hm1]
          simp [hsetr]
        have hmrp : m1.reverse_path_mailbox = m.reverse_path_mailbox := by
          rw [hm1]
        have hmen : m1.dsn_envid = m.dsn_envid := by
          rw [hm1]
        have hX1 : sessionOwned ((st.putMsg mi m1).putExt
              (st.session.required_extensions ||| EXT_DSN)).session
            = ((st.session.host.toList ++ st.session.localhost.toList
                  ++ (p.map messageOwned).flatten)
                ++ (m.reverse_path_mailbox.toList ++ (u.map recipientOwned).flatten))
              ++ recipientOwned r1
              ++ (((v.map recipientOwned).flatten ++ m.dsn_envid.toList)
                  ++ (q.map messageOwned).flatten) := by
          show sessionOwned (st.putMsg mi m1).session = _
          rw [sessionOwned_decomp hmsgs, messageOwned_decomp hrc, hmrp, hmen]
          simp [State.putMsg, List.append_assoc]
        have hFd : ([st.heap.next, st.heap.next + 1] : List Nat).Nodup := by
          refine List.nodup_cons.mpr ⟨?_, List.nodup_singleton _⟩
          simp
        have hr1own : recipientOwned r1
            = r.mailbox.toList ++ [st.heap.next] ++ [st.heap.next + 1] := by
          rw [hr1]
          simp [recipientOwned]
        have hrepl := nodup_sub_replace
          (M := recipientOwned r)
          (N := recipientOwned r1)
          (F := [st.heap.next, st.heap.next + 1])
          n1 n2 (by rw [← hX]; exact n3) (fun a ha => n4 a (by rw [hX]; exact ha))
          hFd
          (by
            intro f hf
            simp at hf
            rcases hf with rfl | rfl <;> omega)
          (fun a => by
            rw [hr1own]
            simp [recipientOwned, List.count_append, List.count_cons])
        have hai1 := heap_alloc_inv n1 n2 atype
        have hai2 := heap_alloc_inv hai1.1 hai1.2 addr
        have haddr : (((st.heap.alloc atype).2.alloc addr).2).addrs
            = st.heap.addrs ++ [st.heap.next, st.heap.next + 1] := by
          simp [Heap.alloc, Heap.addrs]
        refine ⟨hai2.1, hai2.2, ?_, ?_⟩
        · show (sessionOwned _).Nodup
          rw [hX1]
          exact hrepl.1
        · intro a ha
          rw [hX1] at ha
          show a ∈ (((st.heap.alloc atype).2.alloc addr).2).addrs
          rw [haddr]
          exact hrepl.2 a ha
  | sizeSetEstimate mi size =>
    cases hm : st.getMsg mi with
    | none => simpa [step, hm] using ⟨n1, n2, n3, n4⟩
    | some m =>
      have hstep : step db (.sizeSetEstimate mi size) st
          = st.putMsg mi { m with size_estimate := size } := by
        simp [step, hm, smtp_size_set_estimate]
      rw [hstep]
      exact heap_putMsg_same hm rfl ⟨n1, n2, n3, n4⟩
  | e8SetBody mi body =>
    cases hm : st.getMsg mi with
    | none => simpa [step, hm] using ⟨n1, n2, n3, n4⟩
    | some m =>
      by_cases hf : body = e8bitmime_body.E8bitmime_NOTSET
      · have hstep : step db (.e8SetBody mi body) st
            = (st.putMsg mi { m with e8bitmime := body }).putExt
                st.session.required_extensions := by
          simp [step, hm, smtp_8bitmime_set_body, hf]
        rw [hstep]
        exact putExt_heapInv (heap_putMsg_same hm rfl ⟨n1, n2, n3, n4⟩)
      · have hstep : step db (.e8SetBody mi body) st
            = (st.putMsg mi { m with e8bitmime := body }).putExt
                (st.session.required_extensions ||| EXT_8BITMIME) := by
          simp [step, hm, smtp_8bitmime_set_body, hf]
        rw [hstep]
        exact putExt_heapInv (heap_putMsg_same hm rfl ⟨n1, n2, n3, n4⟩)
  | deliverbySetMode mi time mode trace =>
    cases hm : st.getMsg mi with
    | none => simpa [step, hm] using ⟨n1, n2, n3, n4⟩
    | some m =>
      rcases hres : smtp_deliverby_set_mode (some m) time mode trace
        with ⟨ret, err, m1⟩
      have hown := deliverby_owned m time mode trace
      rw [hres] at hown
      have hstep : step db (.deliverbySetMode mi time mode trace) st
          = st.putMsg mi (m1.getD m) := by
        simp [step, hm, hres]
      rw [hstep]
      exact heap_putMsg_same hm hown ⟨n1, n2, n3, n4⟩
  | setMessagecb mi cb =>
    cases hm : st.getMsg mi with
    | none => simpa [step, hm] using ⟨n1, n2, n3, n4⟩
    | some m =>
      cases cb with
      | none =>
        have hstep : step db (.setMessagecb mi none) st = st.putMsg mi m := by
          simp [step, hm, smtp_set_messagecb]
        rw [hstep]
        exact heap_putMsg_same hm rfl ⟨n1, n2, n3, n4⟩
      | some c =>
        have hstep : step db (.setMessagecb mi (some c)) st
            = st.putMsg mi { m with cb := some c } := by
          simp [step, hm, smtp_set_messagecb]
        rw [hstep]
        exact heap_putMsg_same hm rfl ⟨n1, n2, n3, n4⟩
  | setEventcb cb =>
    have hstep : step db (.setEventcb cb) st
        = { st with session := { st.session with event_cb := cb } } := by
      simp [step, smtp_set_eventcb]
    rw [hstep]
    exact heapInv_congr (s := st) rfl rfl ⟨n1, n2, n3, n4⟩
  | setMonitorcb cb headers =>
    have hstep : step db (.setMonitorcb cb headers) st
        = { st with session := { st.session with
              monitor_cb := cb, monitor_cb_headers := headers } } := by
      simp [step, smtp_set_monitorcb]
    rw [hstep]
    exact heapInv_congr (s := st) rfl rfl ⟨n1, n2, n3, n4⟩

theorem ghostInv_init : GhostInv initState := by
  refine ⟨rfl, List.nodup_nil, ?_, ?_, List.nodup_nil, ?_, ?_⟩ <;> simp [initState]

theorem heapInv_init : HeapInv initState := by
  refine ⟨?_, ?_, ?_, ?_⟩ <;> simp [initState, Heap.empty, Heap.addrs, sessionOwned]

theorem ghostInv_runOps (db : String → Option Nat) :
    ∀ (ops : List Op) (st : State), GhostInv st → GhostInv (runOps db ops st) := by
  intro ops
  induction ops with
  | nil => intro st h; exact h
  | cons op ops ih => intro st h; exact ih _ (ghostInv_step db op st h)

theorem heapInv_runOps (db : String → Option Nat) :
    ∀ (ops : List Op) (st : State), (∀ op ∈ ops, op.allocsOk = true) →
      HeapInv st → HeapInv (runOps db ops st) := by
  intro ops
  induction ops with
  | nil => intro st _ h; exact h
  | cons op ops ih =>
    intro st hok h
    exact ih _ (fun o ho => hok o (List.mem_cons_of_mem _ ho))
      (heapInv_step db op st (hok op (List.mem_cons_self _ _)) h)

/-!  The deallocation trace of `smtp_destroy_session`, related to the owned
addresses and the entity stamps. -/

theorem strFrees_append (xs ys : List Evt) :
    strFrees (xs ++ ys) = strFrees xs ++ strFrees ys := by
  induction xs with
  | nil => rfl
  | cons e es ih => cases e <;> simp [strFrees, ih]

theorem msgFrees_append (xs ys : List Evt) :
    msgFrees (xs ++ ys) = msgFrees xs ++ msgFrees ys := by
  induction xs with
  | nil => rfl
  | cons e es ih => cases e <;> simp [msgFrees, ih]

theorem recipFrees_append (xs ys : List Evt) :
    recipFrees (xs ++ ys) = recipFrees xs ++ recipFrees ys := by
  induction xs with
  | nil => rfl
  | cons e es ih => cases e <;> simp [recipFrees, ih]

theorem strFrees_optFree (o : Option Addr) : strFrees (optFree o) = o.toList := by
  cases o <;> rfl

theorem msgFrees_optFree (o : Option Addr) : msgFrees (optFree o) = [] := by
  cases o <;> rfl

theorem recipFrees_optFree (o : Option Addr) : recipFrees (optFree o) = [] := by
  cases o <;> rfl

theorem strFrees_recipientTrace (r : smtp_recipient) :
    strFrees (recipientTrace r) = recipientOwned r := by
  simp [recipientTrace, recipientOwned, strFrees_append, strFrees_optFree, strFrees]

theorem strFrees_flatten_rec (rs : List smtp_recipient) :
    strFrees ((rs.map recipientTrace).flatten) = (rs.map recipientOwned).flatten := by
  induction rs with
  | nil => rfl
  | cons r rest ih => simp [strFrees_append, strFrees_recipientTrace, ih]

theorem strFrees_messageTrace (m : smtp_message) :
    strFrees (messageTrace m) = messageOwned m := by
  simp [messageTrace, messageOwned, strFrees_append, strFrees_optFree,
    strFrees_flatten_rec, strFrees]

theorem strFrees_destroy (s : smtp_session) :
    strFrees (smtp_destroy_session s) = sessionOwned s := by
  have hmm : strFrees ((s.messages.map messageTrace).flatten)
      = (s.messages.map messageOwned).flatten := by
    induction s.messages with
    | nil => rfl
    | cons m rest ih => simp [strFrees_append, strFrees_messageTrace, ih]
  simp [smtp_destroy_session, sessionOwned, strFrees_append, strFrees_optFree,
    hmm, strFrees]

theorem msgFrees_recipientTrace (r : smtp_recipient) :
    msgFrees (recipientTrace r) = [] := by
  simp [recipientTrace, msgFrees_append, msgFrees_optFree, msgFrees]

theorem msgFrees_messageTrace (m : smtp_message) :
    msgFrees (messageTrace m) = [m.id] := by
  have hmm : msgFrees ((m.recipients.map recipientTrace).flatten) = [] := by
    induction m.recipients with
    | nil => rfl
    | cons r rest ih => simp [msgFrees_append, msgFrees_recipientTrace, ih]
  simp [messageTrace, msgFrees_append, msgFrees_optFree, hmm, msgFrees]

theorem msgFrees_destroy (s : smtp_session) :
    msgFrees (smtp_destroy_session s) = s.messages.map (fun m => m.id) := by
  have hmm : msgFrees ((s.messages.map messageTrace).flatten)
      = s.messages.map (fun m => m.id) := by
    induction s.messages with
    | nil => rfl
    | cons m rest ih => simp [msgFrees_append, msgFrees_messageTrace, ih]
  simp [smtp_destroy_session, msgFrees_append, msgFrees_optFree, hmm, msgFrees]

theorem recipFrees_recipientTrace (r : smtp_recipient) :
    recipFrees (recipientTrace r) = [r.id] := by
  simp [recipientTrace, recipFrees_append, recipFrees_optFree, recipFrees]

theorem recipFrees_messageTrace (m : smtp_message) :
    recipFrees (messageTrace m) = m.recipients.map (fun r => r.id) := by
  have hmm : recipFrees ((m.recipients.map recipientTrace).flatten)
      = m.recipients.map (fun r => r.id) := by
    induction m.recipients with
    | nil => rfl
    | cons r rest ih => simp [recipFrees_append, recipFrees_recipientTrace, ih]
  simp [messageTrace, recipFrees_append, recipFrees_optFree, hmm, recipFrees]

theorem recipFrees_destroy (s : smtp_session) :
    recipFrees (smtp_destroy_session s)
      = (s.messages.map (fun m => m.recipients.map (fun r => r.id))).flatten := by
  have hmm : recipFrees ((s.messages.map messageTrace).flatten)
      = (s.messages.map (fun m => m.recipients.map (fun r => r.id))).flatten := by
    induction s.messages with
    | nil => rfl
    | cons m rest ih => simp [recipFrees_append, recipFrees_messageTrace, ih]
  simp [smtp_destroy_session, recipFrees_append, recipFrees_optFree, hmm, recipFrees]

theorem before_in_messageTrace {m : smtp_message} {e1 : Evt}
    (h : e1 ∈ optFree m.reverse_path_mailbox
        ∨ e1 ∈ (m.recipients.map recipientTrace).flatten
        ∨ e1 ∈ optFree m.dsn_envid) :
    Before e1 (.freeMessage m.id) (messageTrace m) := by
  show Before e1 _ (optFree m.reverse_path_mailbox
    ++ (m.recipients.map recipientTrace).flatten ++ optFree m.dsn_envid
    ++ [.freeMessage m.id])
  refine before_append_of_mem ?_ (by simp)
  rcases h with h | h | h <;> simp [h]

theorem before_in_recipientTrace {r : smtp_recipient} {e1 : Evt}
    (h : e1 ∈ optFree r.mailbox ∨ e1 ∈ optFree r.dsn_addrtype
        ∨ e1 ∈ optFree r.dsn_orcpt) :
    Before e1 (.freeRecipient r.id) (recipientTrace r) := by
  show Before e1 _ (optFree r.mailbox ++ optFree r.dsn_addrtype
    ++ optFree r.dsn_orcpt ++ [.freeRecipient r.id])
  refine before_append_of_mem ?_ (by simp)
  rcases h with h | h | h <;> simp [h]

theorem before_lift_rcpt {m : smtp_message} {r : smtp_recipient} {e1 e2 : Evt}
    (hr : r ∈ m.recipients) (h : Before e1 e2 (recipientTrace r)) :
    Before e1 e2 (messageTrace m) := by
  obtain ⟨L, R, hLR⟩ := flatten_map_decomp recipientTrace hr
  show Before e1 e2 (optFree m.reverse_path_mailbox
    ++ (m.recipients.map recipientTrace).flatten ++ optFree m.dsn_envid
    ++ [.freeMessage m.id])
  rw [hLR]
  have h1 := before_append_left
    (v := R ++ (optFree m.dsn_envid ++ [Evt.freeMessage m.id])) h
  have h2 := before_append_right (u := optFree m.reverse_path_mailbox ++ L) h1
  simpa [List.append_assoc] using h2

theorem before_lift_msg {s : smtp_session} {m : smtp_message} {e1 e2 : Evt}
    (hm : m ∈ s.messages) (h : Before e1 e2 (messageTrace m)) :
    Before e1 e2 (smtp_destroy_session s) := by
  obtain ⟨L, R, hLR⟩ := flatten_map_decomp messageTrace hm
  show Before e1 e2 (optFree s.host ++ optFree s.localhost
    ++ (s.messages.map messageTrace).flatten ++ [.freeSession])
  rw [hLR]
  have h1 := before_append_left (v := R ++ [Evt.freeSession]) h
  have h2 := before_append_right (u := optFree s.host ++ optFree s.localhost ++ L) h1
  simpa [List.append_assoc] using h2

theorem before_evt_session {s : smtp_session} {e1 : Evt}
    (h : e1 ∈ (s.messages.map messageTrace).flatten
        ∨ e1 ∈ optFree s.host ∨ e1 ∈ optFree s.localhost) :
    Before e1 .freeSession (smtp_destroy_session s) := by
  show Before e1 _ (optFree s.host ++ optFree s.localhost
    ++ (s.messages.map messageTrace).flatten ++ [.freeSession])
  refine before_append_of_mem ?_ (by simp)
  rcases h with h | h | h <;> simp [h]

theorem eq_of_nodup_snd {log : List (Nat × Nat)} (h : (log.map Prod.snd).Nodup)
    {p p' : Nat × Nat} (hp : p ∈ log) (hp' : p' ∈ log) (he : p.2 = p'.2) : p = p' :=
  List.inj_on_of_nodup_map h hp hp' he

/-- Correctness of the teardown against the invariants: every owned string
is freed exactly once (in traversal order) and is live; every message and
recipient struct is freed exactly once; and the frees are leaves-first. -/
theorem destroy_correct_of_inv (st : State) (hG : GhostInv st) (hH : HeapInv st) :
    strFrees (smtp_destroy_session st.session) = sessionOwned st.session ∧
    (strFrees (smtp_destroy_session st.session)).Nodup ∧
    (∀ a ∈ strFrees (smtp_destroy_session st.session), a ∈ st.heap.addrs) ∧
    msgFrees (smtp_destroy_session st.session)
      = st.session.messages.map (fun m => m.id) ∧
    (msgFrees (smtp_destroy_session st.session)).Nodup ∧
    recipFrees (smtp_destroy_session st.session)
      = (st.session.messages.map (fun m => m.recipients.map (fun r => r.id))).flatten ∧
    (recipFrees (smtp_destroy_session st.session)).Nodup ∧
    (∀ m ∈ st.session.messages,
      Before (.freeMessage m.id) .freeSession (smtp_destroy_session st.session) ∧
      (∀ a, m.reverse_path_mailbox = some a →
        Before (.freeStr a) (.freeMessage m.id) (smtp_destroy_session st.session)) ∧
      (∀ a, m.dsn_envid = some a →
        Before (.freeStr a) (.freeMessage m.id) (smtp_destroy_session st.session)) ∧
      (∀ r ∈ m.recipients,
        Before (.freeRecipient r.id) (.freeMessage m.id) (smtp_destroy_session st.session) ∧
        (∀ a, r.mailbox = some a →
          Before (.freeStr a) (.freeRecipient r.id) (smtp_destroy_session st.session)) ∧
        (∀ a, r.dsn_addrtype = some a →
          Before (.freeStr a) (.freeRecipient r.id) (smtp_destroy_session st.session)) ∧
        (∀ a, r.dsn_orcpt = some a →
          Before (.freeStr a) (.freeRecipient r.id) (smtp_destroy_session st.session)))) ∧
    (∀ a, st.session.host = some a →
      Before (.freeStr a) .freeSession (smtp_destroy_session st.session)) ∧
    (∀ a, st.session.localhost = some a →
      Before (.freeStr a) .freeSession (smtp_destroy_session st.session)) := by
  obtain ⟨g1, g2, g3, g4, g5, g6, g7⟩ := hG
  obtain ⟨n1, n2, n3, n4⟩ := hH
  refine ⟨strFrees_destroy _, ?_, ?_, msgFrees_destroy _, ?_, recipFrees_destroy _,
    ?_, ?_, ?_, ?_⟩
  · rw [strFrees_destroy]
    exact n3
  · intro a ha
    rw [strFrees_destroy] at ha
    exact n4 a ha
  · rw [msgFrees_destroy, g1]
    exact g2
  · rw [recipFrees_destroy]
    rw [List.nodup_flatten]
    constructor
    · intro ids hids
      obtain ⟨m, hm, rfl⟩ := List.mem_map.mp hids
      rw [g4 m hm]
      unfold rcptOrder
      exact g5.sublist (List.Sublist.map _ (List.filter_sublist _))
    · rw [List.pairwise_map]
      have hnd : (st.session.messages.map (fun m => m.id)).Nodup := by
        rw [g1]
        exact g2
      have hpw : st.session.messages.Pairwise (fun m m2 => m.id ≠ m2.id) :=
        List.pairwise_map.mp hnd
      refine List.Pairwise.imp_of_mem ?_ hpw
      intro m m2 hm hm2 hne
      intro x hx hx2
      rw [g4 m hm] at hx
      rw [g4 m2 hm2] at hx2
      unfold rcptOrder at hx hx2
      obtain ⟨pp, hpfil, hpx⟩ := List.mem_map.mp hx
      obtain ⟨pp2, hp2fil, hp2x⟩ := List.mem_map.mp hx2
      have hpmem : pp ∈ st.rcptLog := List.mem_of_mem_filter hpfil
      have hp2mem : pp2 ∈ st.rcptLog := List.mem_of_mem_filter hp2fil
      have hpkey : pp.1 = m.id := by simpa using List.of_mem_filter hpfil
      have hp2key : pp2.1 = m2.id := by simpa using List.of_mem_filter hp2fil
      have heq : pp = pp2 := eq_of_nodup_snd g5 hpmem hp2mem (by rw [hpx, hp2x])
      exact hne (by rw [← hpkey, heq, hp2key])
  · intro m hm
    refine ⟨?_, ?_, ?_, ?_⟩
    · exact before_evt_session (Or.inl (mem_flatten_map hm (by simp [messageTrace])))
    · intro a ha
      exact before_lift_msg hm (before_in_messageTrace (Or.inl (by simp [optFree, ha])))
    · intro a ha
      exact before_lift_msg hm
        (before_in_messageTrace (Or.inr (Or.inr (by simp [optFree, ha]))))
    · intro r hr
      refine ⟨?_, ?_, ?_, ?_⟩
      · exact before_lift_msg hm (before_in_messageTrace
          (Or.inr (Or.inl (mem_flatten_map hr (by simp [recipientTrace])))))
      · intro a ha
        exact before_lift_msg hm (before_lift_rcpt hr
          (before_in_recipientTrace (Or.inl (by simp [optFree, ha]))))
      · intro a ha
        exact before_lift_msg hm (before_lift_rcpt hr
          (before_in_recipientTrace (Or.inr (Or.inl (by simp [optFree, ha])))))
      · intro a ha
        exact before_lift_msg hm (before_lift_rcpt hr
          (before_in_recipientTrace (Or.inr (Or.inr (by simp [optFree, ha])))))
  · intro a ha
    exact before_evt_session (Or.inr (Or.inl (by simp [optFree, ha])))
  · intro a ha
    exact before_evt_session (Or.inr (Or.inr (by simp [optFree, ha])))

theorem set_server_ext (ok : Bool) (db : String → Option Nat) (h : Heap)
    (sess : smtp_session) (hp : String) :
    ((smtp_set_server ok db h (some sess) (some hp)).2.2.2.getD sess).required_extensions
      = sess.required_extensions := by
  cases ok
  · rfl
  · rcases hq : splitColon hp.data with ⟨hostPart, service⟩
    cases service with
    | none => simp [smtp_set_server, strdup, hq]
    | some sv =>
      by_cases hd : headIsDigit sv
      · simp [smtp_set_server, strdup, hq, hd]
      · cases hdb : db (String.mk sv) with
        | some p => simp [smtp_set_server, strdup, hq, hd, hdb]
        | none => simp [smtp_set_server, strdup, hq, hd, hdb]

theorem set_hostname_ext (ok : Bool) (h : Heap) (sess : smtp_session)
    (hn : Option String) :
    ((smtp_set_hostname ok h (some sess) hn).2.2.2.getD sess).required_extensions
      = sess.required_extensions := by
  cases hn with
  | none => cases hl : sess.localhost <;> simp [smtp_set_hostname, hl]
  | some name =>
    cases ok <;> cases hl : sess.localhost <;> simp [smtp_set_hostname, strdup, hl]

/-- Every public operation leaves the requirement set unchanged or ORs bits
into it. -/
theorem ext_step (db : String → Option Nat) (op : Op) (st : State) :
    ∃ k, (step db op st).session.required_extensions
      = st.session.required_extensions ||| k := by
  cases op with
  | setServer hp ok =>
    rcases hres : smtp_set_server ok db st.heap (some st.session) (some hp)
      with ⟨ret, err, h1, s1⟩
    have he := set_server_ext ok db st.heap st.session hp
    rw [hres] at he
    refine ⟨0, ?_⟩
    rw [Nat.or_zero]
    simpa [step, hres] using he
  | setHostname hn ok =>
    rcases hres : smtp_set_hostname ok st.heap (some st.session) hn
      with ⟨ret, err, h1, s1⟩
    have he := set_hostname_ext ok st.heap st.session hn
    rw [hres] at he
    refine ⟨0, ?_⟩
    rw [Nat.or_zero]
    simpa [step, hres] using he
  | addMessage ok =>
    refine ⟨0, ?_⟩
    rw [Nat.or_zero]
    cases ok <;> simp [step, smtp_add_message]
  | setReversePath mi mbx ok =>
    cases hm : st.getMsg mi with
    | none => exact ⟨0, by simp [step, hm]⟩
    | some m =>
      refine ⟨0, ?_⟩
      rw [Nat.or_zero]
      rcases hres : smtp_set_reverse_path ok st.heap (some m) mbx
        with ⟨ret, err, h1, m1⟩
      simp [step, hm, hres, State.putMsg]
  | addRecipient mi mbx okm oks =>
    cases hm : st.getMsg mi with
    | none => exact ⟨0, by simp [step, hm]⟩
    | some m =>
      refine ⟨0, ?_⟩
      rw [Nat.or_zero]
      cases mbx <;> cases okm <;> cases oks <;>
        simp [step, hm, smtp_add_recipient, strdup, State.putMsg]
  | messageResetStatus mi =>
    cases hm : st.getMsg mi with
    | none => exact ⟨0, by simp [step, hm]⟩
    | some m =>
      exact ⟨0, by simp [step, hm, smtp_message_reset_status, State.putMsg, Nat.or_zero]⟩
  | recipientResetStatus mi ri =>
    cases hgr : st.getRcpt mi ri with
    | none => exact ⟨0, by simp [step, hgr]⟩
    | some r =>
      refine ⟨0, ?_⟩
      rw [Nat.or_zero]
      simp [step, hgr, smtp_recipient_reset_status, State.putRcpt, State.putMsg]
      cases hm : st.getMsg mi <;> simp [State.putMsg]
  | dsnSetRet mi flags =>
    cases hm : st.getMsg mi with
    | none => exact ⟨0, by simp [step, hm]⟩
    | some m =>
      by_cases hf : flags = ret_flags.Ret_NOTSET
      · exact ⟨0, by
          simp [step, hm, smtp_dsn_set_ret, hf, State.putExt, State.putMsg, Nat.or_zero]⟩
      · exact ⟨EXT_DSN, by
          simp [step, hm, smtp_dsn_set_ret, hf, State.putExt, State.putMsg]⟩
  | dsnSetEnvid mi envid ok =>
    cases hm : st.getMsg mi with
    | none => exact ⟨0, by simp [step, hm]⟩
    | some m =>
      cases ok with
      | false =>
        exact ⟨0, by
          simp [step, hm, smtp_dsn_set_envid, strdup, State.putExt, State.putMsg,
            Nat.or_zero]⟩
      | true =>
        exact ⟨EXT_DSN, by
          simp [step, hm, smtp_dsn_set_envid, strdup, State.putExt, State.putMsg]⟩
  | dsnSetNotify mi ri flags =>
    cases hgr : st.getRcpt mi ri with
    | none => exact ⟨0, by simp [step, hgr]⟩
    | some r =>
      by_cases hf : flags = Notify_NOTSET
      · refine ⟨0, ?_⟩
        rw [Nat.or_zero]
        simp [step, hgr, smtp_dsn_set_notify, hf, State.putExt, State.putRcpt]
      · exact ⟨EXT_DSN, by
          simp [step, hgr, smtp_dsn_set_notify, hf, State.putExt, State.putRcpt,
            State.putMsg]⟩
  | dsnSetOrcpt mi ri atype addr ok1 ok2 =>
    cases hgr : st.getRcpt mi ri with
    | none => exact ⟨0, by simp [step, hgr]⟩
    | some r =>
      cases ok1 with
      | false =>
        refine ⟨0, ?_⟩
        rw [Nat.or_zero]
        simp [step, hgr, smtp_dsn_set_orcpt, strdup, State.putExt, State.putRcpt]
      | true =>
        cases ok2 with
        | false =>
          refine ⟨0, ?_⟩
          rw [Nat.or_zero]
          simp [step, hgr, smtp_dsn_set_orcpt, strdup, State.putExt, State.putRcpt]
        | true =>
          exact ⟨EXT_DSN, by
            simp [step, hgr, smtp_dsn_set_orcpt, strdup, State.putExt, State.putRcpt,
              State.putMsg]⟩
  | sizeSetEstimate mi size =>
    cases hm : st.getMsg mi with
    | none => exact ⟨0, by simp [step, hm]⟩
    | some m =>
      exact ⟨0, by simp [step, hm, smtp_size_set_estimate, State.putMsg, Nat.or_zero]⟩
  | e8SetBody mi body =>
    cases hm : st.getMsg mi with
    | none => exact ⟨0, by simp [step, hm]⟩
    | some m =>
      by_cases hf : body = e8bitmime_body.E8bitmime_NOTSET
      · exact ⟨0, by
          simp [step, hm, smtp_8bitmime_set_body, hf, State.putExt, State.putMsg,
            Nat.or_zero]⟩
      · exact ⟨EXT_8BITMIME, by
          simp [step, hm, smtp_8bitmime_set_body, hf, State.putExt, State.putMsg]⟩
  | deliverbySetMode mi time mode trace =>
    cases hm : st.getMsg mi with
    | none => exact ⟨0, by simp [step, hm]⟩
    | some m =>
      refine ⟨0, ?_⟩
      rw [Nat.or_zero]
      rcases hres : smtp_deliverby_set_mode (some m) time mode trace
        with ⟨ret, err, m1⟩
      simp [step, hm, hres, State.putMsg]
  | setMessagecb mi cb =>
    cases hm : st.getMsg mi with
    | none => exact ⟨0, by simp [step, hm]⟩
    | some m =>
      refine ⟨0, ?_⟩
      rw [Nat.or_zero]
      cases cb <;> simp [step, hm, smtp_set_messagecb, State.putMsg]
  | setEventcb cb =>
    exact ⟨0, by simp [step, smtp_set_eventcb, Nat.or_zero]⟩
  | setMonitorcb cb headers =>
    exact ⟨0, by simp [step, smtp_set_monitorcb, Nat.or_zero]⟩

/-- Counterexample to the claim that any extension-bearing setter given a
non-default value leaves that extension's bit in the session's requirement
set: `smtp_size_set_estimate` stores the non-default estimate 100 on the
message, yet the requirement set stays empty (and likewise
`smtp_deliverby_set_mode` never touches it). -/
theorem size_set_estimate_adds_no_extension_bit :
    ((runOps sampleDb [Op.addMessage true, Op.sizeSetEstimate 0 100]
        initState).getMsg 0).map (fun m => m.size_estimate) = some 100 ∧
    (runOps sampleDb [Op.addMessage true, Op.sizeSetEstimate 0 100]
        initState).session.required_extensions = 0 := by
  exact ⟨rfl, rfl⟩

/-- C5: the requirement set accumulates monotonically — every public
operation ORs bits into it (possibly none), so a bit once set survives any
further history — and every DSN setter (`smtp_dsn_set_envid`,
`smtp_dsn_set_ret`, `smtp_dsn_set_notify`, `smtp_dsn_set_orcpt`) given a
valid target and a non-default value puts the DSN bit in, while
`smtp_8bitmime_set_body` given a non-default body puts the 8BITMIME bit in;
however the size-estimate and DELIVERBY setters leave the requirement set
exactly unchanged, contributing no bit at all. -/
theorem required_extensions_monotone (servdb : String → Option Nat) :
    (∀ (op : Op) (st : State), ∃ k,
        (step servdb op st).session.required_extensions
          = st.session.required_extensions ||| k) ∧
    (∀ (ops : List Op) (st : State) (n : Nat),
        st.session.required_extensions.testBit n = true →
        (runOps servdb ops st).session.required_extensions.testBit n = true) ∧
    (∀ (mi : Nat) (envid : String) (st : State),
        (st.getMsg mi).isSome = true →
        (step servdb (Op.dsnSetEnvid mi envid true)
            st).session.required_extensions.testBit 0 = true) ∧
    (∀ (mi : Nat) (flags : ret_flags) (st : State),
        (st.getMsg mi).isSome = true → flags ≠ ret_flags.Ret_NOTSET →
        (step servdb (Op.dsnSetRet mi flags)
            st).session.required_extensions.testBit 0 = true) ∧
    (∀ (mi ri : Nat) (flags : notify_flags) (st : State),
        (st.getRcpt mi ri).isSome = true → flags ≠ Notify_NOTSET →
        (step servdb (Op.dsnSetNotify mi ri flags)
            st).session.required_extensions.testBit 0 = true) ∧
    (∀ (mi ri : Nat) (atype addr : String) (st : State),
        (st.getRcpt mi ri).isSome = true →
        (step servdb (Op.dsnSetOrcpt mi ri atype addr true true)
            st).session.required_extensions.testBit 0 = true) ∧
    (∀ (mi : Nat) (body : e8bitmime_body) (st : State),
        (st.getMsg mi).isSome = true → body ≠ e8bitmime_body.E8bitmime_NOTSET →
        (step servdb (Op.e8SetBody mi body)
            st).session.required_extensions.testBit 1 = true) ∧
    (∀ (mi size : Nat) (st : State),
        (step servdb (Op.sizeSetEstimate mi size) st).session.required_extensions
          = st.session.required_extensions) ∧
    (∀ (mi : Nat) (time : Int) (mode : by_mode) (trace : Bool) (st : State),
        (step servdb (Op.deliverbySetMode mi time mode trace)
            st).session.required_extensions
          = st.session.required_extensions) := by
  refine ⟨ext_step servdb, ?_, ?_, ?_, ?_, ?_, ?_, ?_, ?_⟩
  · intro ops
    induction ops with
    | nil => intro st n h; exact h
    | cons op ops ih =>
      intro st n h
      obtain ⟨k, hk⟩ := ext_step servdb op st
      have hstep : (step servdb op st).session.required_extensions.testBit n = true := by
        rw [hk, Nat.testBit_or, h, Bool.true_or]
      exact ih (step servdb op st) n hstep
  · intro mi envid st hm
    cases hgm : st.getMsg mi with
    | none => rw [hgm] at hm; simp at hm
    | some m =>
      have hext : (step servdb (Op.dsnSetEnvid mi envid true)
          st).session.required_extensions
            = st.session.required_extensions ||| EXT_DSN := by
        simp [step, hgm, smtp_dsn_set_envid, strdup, State.putExt, State.putMsg]
      have hbit : Nat.testBit EXT_DSN 0 = true := by decide
      rw [hext, Nat.testBit_or, hbit, Bool.or_true]
  · intro mi flags st hm hf
    cases hgm : st.getMsg mi with
    | none => rw [hgm] at hm; simp at hm
    | some m =>
      have hext : (step servdb (Op.dsnSetRet mi flags)
          st).session.required_extensions
            = st.session.required_extensions ||| EXT_DSN := by
        simp [step, hgm, smtp_dsn_set_ret, hf, State.putExt, State.putMsg]
      have hbit : Nat.testBit EXT_DSN 0 = true := by decide
      rw [hext, Nat.testBit_or, hbit, Bool.or_true]
  · intro mi ri flags st hr hf
    cases hgr : st.getRcpt mi ri with
    | none => rw [hgr] at hr; simp at hr
    | some r =>
      have hext : (step servdb (Op.dsnSetNotify mi ri flags)
          st).session.required_extensions
            = st.session.required_extensions ||| EXT_DSN := by
        simp [step, hgr, smtp_dsn_set_notify, hf, State.putExt, State.putRcpt,
          State.putMsg]
      have hbit : Nat.testBit EXT_DSN 0 = true := by decide
      rw [hext, Nat.testBit_or, hbit, Bool.or_true]
  · intro mi ri atype addr st hr
    cases hgr : st.getRcpt mi ri with
    | none => rw [hgr] at hr; simp at hr
    | some r =>
      have hext : (step servdb (Op.dsnSetOrcpt mi ri atype addr true true)
          st).session.required_extensions
            = st.session.required_extensions ||| EXT_DSN := by
        simp [step, hgr, smtp_dsn_set_orcpt, strdup, State.putExt, State.putRcpt,
          State.putMsg]
      have hbit : Nat.testBit EXT_DSN 0 = true := by decide
      rw [hext, Nat.testBit_or, hbit, Bool.or_true]
  · intro mi body st hm hf
    cases hgm : st.getMsg mi with
    | none => rw [hgm] at hm; simp at hm
    | some m =>
      have hext : (step servdb (Op.e8SetBody mi body)
          st).session.required_extensions
            = st.session.required_extensions ||| EXT_8BITMIME := by
        simp [step, hgm, smtp_8bitmime_set_body, hf, State.putExt, State.putMsg]
      have hbit : Nat.testBit EXT_8BITMIME 1 = true := by decide
      rw [hext, Nat.testBit_or, hbit, Bool.or_true]
  · intro mi size st
    cases hgm : st.getMsg mi with
    | none => simp [step, hgm]
    | some m => simp [step, hgm, smtp_size_set_estimate, State.putMsg]
  · intro mi time mode trace st
    cases hgm : st.getMsg mi with
    | none => simp [step, hgm]
    | some m =>
      rcases hres : smtp_deliverby_set_mode (some m) time mode trace with ⟨ret, err, m1⟩
      simp [step, hgm, hres, State.putMsg]

/-- Concrete run of `required_extensions_monotone`: a valid message and a
valid recipient exist; setting an ENVID, RET flags, NOTIFY flags or an
ORCPT pair puts the DSN bit in; setting an 8BITMIME body puts the 8BITMIME
bit in; a further server assignment keeps the DSN bit; and the
size-estimate setter leaves the requirement set unchanged. -/
theorem required_extensions_monotone_witness :
    ((runOps sampleDb [Op.addMessage true] initState).getMsg 0).isSome = true ∧
    ((runOps sampleDb [Op.addMessage true,
        Op.addRecipient 0 (some "alice@example.org") true true]
        initState).getRcpt 0 0).isSome = true ∧
    ret_flags.Ret_FULL ≠ ret_flags.Ret_NOTSET ∧
    (1 : notify_flags) ≠ Notify_NOTSET ∧
    e8bitmime_body.E8bitmime_8BITMIME ≠ e8bitmime_body.E8bitmime_NOTSET ∧
    (step sampleDb (Op.dsnSetEnvid 0 "abc" true)
        (runOps sampleDb [Op.addMessage true]
          initState)).session.required_extensions.testBit 0 = true ∧
    (step sampleDb (Op.dsnSetRet 0 ret_flags.Ret_FULL)
        (runOps sampleDb [Op.addMessage true]
          initState)).session.required_extensions.testBit 0 = true ∧
    (step sampleDb (Op.dsnSetNotify 0 0 1)
        (runOps sampleDb [Op.addMessage true,
          Op.addRecipient 0 (some "alice@example.org") true true]
          initState)).session.required_extensions.testBit 0 = true ∧
    (step sampleDb (Op.dsnSetOrcpt 0 0 "rfc822" "bob@example.org" true true)
        (runOps sampleDb [Op.addMessage true,
          Op.addRecipient 0 (some "alice@example.org") true true]
          initState)).session.required_extensions.testBit 0 = true ∧
    (step sampleDb (Op.e8SetBody 0 e8bitmime_body.E8bitmime_8BITMIME)
        (runOps sampleDb [Op.addMessage true]
          initState)).session.required_extensions.testBit 1 = true ∧
    (runOps sampleDb [Op.setServer "mail.example.org" true]
        (step sampleDb (Op.dsnSetEnvid 0 "abc" true)
          (runOps sampleDb [Op.addMessage true]
            initState))).session.required_extensions.testBit 0 = true ∧
    (step sampleDb (Op.sizeSetEstimate 0 100)
        (runOps sampleDb [Op.addMessage true] initState)).session.required_extensions
      = (runOps sampleDb [Op.addMessage true] initState).session.required_extensions :=
  ⟨by decide, by decide, by decide, by decide, by decide,
   (required_extensions_monotone sampleDb).2.2.1 0 "abc" _ (by decide),
   (required_extensions_monotone sampleDb).2.2.2.1 0 ret_flags.Ret_FULL _
     (by decide) (by decide),
   (required_extensions_monotone sampleDb).2.2.2.2.1 0 0 1 _ (by decide) (by decide),
   (required_extensions_monotone sampleDb).2.2.2.2.2.1 0 0 "rfc822" "bob@example.org" _
     (by decide),
   (required_extensions_monotone sampleDb).2.2.2.2.2.2.1 0
     e8bitmime_body.E8bitmime_8BITMIME _ (by decide) (by decide),
   (required_extensions_monotone sampleDb).2.1 [Op.setServer "mail.example.org" true] _ 0
     (by decide),
   (required_extensions_monotone sampleDb).2.2.2.2.2.2.2.1 0 100 _⟩

/-- C6: enumeration visits each entity exactly once, in creation order:
`smtp_enumerate_messages` visits exactly the ghost journal of message
creations, in order and without repetition, and for every message of the
session `smtp_enumerate_recipients` visits exactly that message's logged
recipient creations, in order and without repetition. -/
theorem enumeration_visits_in_creation_order (servdb : String → Option Nat)
    (ops : List Op) :
    enumMsgIds (runOps servdb ops initState).session
      = (runOps servdb ops initState).msgLog ∧
    (enumMsgIds (runOps servdb ops initState).session).Nodup ∧
    ∀ m ∈ (runOps servdb ops initState).session.messages,
      enumRcptIds m = rcptOrder (runOps servdb ops initState) m.id ∧
      (enumRcptIds m).Nodup := by
  obtain ⟨g1, g2, g3, g4, g5, g6, g7⟩ :=
    ghostInv_runOps servdb ops initState ghostInv_init
  refine ⟨?_, ?_, ?_⟩
  · rw [enumMsgIds_eq, g1]
  · rw [enumMsgIds_eq, g1]; exact g2
  · intro m hm
    refine ⟨?_, ?_⟩
    · rw [enumRcptIds_eq]; exact g4 m hm
    · rw [enumRcptIds_eq, g4 m hm]
      unfold rcptOrder
      exact g5.sublist (List.Sublist.map _ (List.filter_sublist _))

/-- Concrete run of `enumeration_visits_in_creation_order` on the sample
history: its one message is in the session's list, message enumeration
follows the creation journal, and the message's recipient enumeration
follows its logged creations. -/
theorem enumeration_visits_in_creation_order_witness :
    ((runOps sampleDb sampleOps initState).session.messages.getD 0 {})
        ∈ (runOps sampleDb sampleOps initState).session.messages ∧
    enumMsgIds (runOps sampleDb sampleOps initState).session
      = (runOps sampleDb sampleOps initState).msgLog ∧
    enumRcptIds ((runOps sampleDb sampleOps initState).session.messages.getD 0 {})
      = rcptOrder (runOps sampleDb sampleOps initState)
          ((runOps sampleDb sampleOps initState).session.messages.getD 0 {}).id :=
  ⟨by decide,
   (enumeration_visits_in_creation_order sampleDb sampleOps).1,
   ((enumeration_visits_in_creation_order sampleDb sampleOps).2.2 _ (by decide)).1⟩

/-- C7: destroying a session built purely through the public operations
(with every allocation succeeding) frees all owned memory with no leaks —
the freed strings are exactly the owned ones, each struct is freed exactly
once — with no double frees, and leaves-first: a recipient's strings before
the recipient, recipients before their message, a message's strings before
the message, messages and the session's strings before the session. -/
theorem destroy_session_frees_all_once_leaves_first
    (servdb : String → Option Nat) (ops : List Op) (st : State)
    (hst : st = runOps servdb ops initState)
    (hok : ∀ op ∈ ops, op.allocsOk = true) :
    strFrees (smtp_destroy_session st.session) = sessionOwned st.session ∧
    (strFrees (smtp_destroy_session st.session)).Nodup ∧
    (∀ a ∈ strFrees (smtp_destroy_session st.session), a ∈ st.heap.addrs) ∧
    msgFrees (smtp_destroy_session st.session)
      = st.session.messages.map (fun m => m.id) ∧
    (msgFrees (smtp_destroy_session st.session)).Nodup ∧
    recipFrees (smtp_destroy_session st.session)
      = (st.session.messages.map (fun m => m.recipients.map (fun r => r.id))).flatten ∧
    (recipFrees (smtp_destroy_session st.session)).Nodup ∧
    (∀ m ∈ st.session.messages,
      Before (.freeMessage m.id) .freeSession (smtp_destroy_session st.session) ∧
      (∀ a, m.reverse_path_mailbox = some a →
        Before (.freeStr a) (.freeMessage m.id) (smtp_destroy_session st.session)) ∧
      (∀ a, m.dsn_envid = some a →
        Before (.freeStr a) (.freeMessage m.id) (smtp_destroy_session st.session)) ∧
      (∀ r ∈ m.recipients,
        Before (.freeRecipient r.id) (.freeMessage m.id) (smtp_destroy_session st.session) ∧
        (∀ a, r.mailbox = some a →
          Before (.freeStr a) (.freeRecipient r.id) (smtp_destroy_session st.session)) ∧
        (∀ a, r.dsn_addrtype = some a →
          Before (.freeStr a) (.freeRecipient r.id) (smtp_destroy_session st.session)) ∧
        (∀ a, r.dsn_orcpt = some a →
          Before (.freeStr a) (.freeRecipient r.id) (smtp_destroy_session st.session)))) ∧
    (∀ a, st.session.host = some a →
      Before (.freeStr a) .freeSession (smtp_destroy_session st.session)) ∧
    (∀ a, st.session.localhost = some a →
      Before (.freeStr a) .freeSession (smtp_destroy_session st.session)) := by
  subst hst
  exact destroy_correct_of_inv _
    (ghostInv_runOps servdb ops initState ghostInv_init)
    (heapInv_runOps servdb ops initState hok heapInv_init)

/-- Concrete run of `destroy_session_frees_all_once_leaves_first` on the
sample history, whose allocations all succeed: the teardown trace frees
exactly the owned strings, and frees none of them twice. -/
theorem destroy_session_frees_all_once_leaves_first_witness :
    (∀ op ∈ sampleOps, op.allocsOk = true) ∧
    strFrees (smtp_destroy_session (runOps sampleDb sampleOps initState).session)
      = sessionOwned (runOps sampleDb sampleOps initState).session ∧
    (strFrees
        (smtp_destroy_session (runOps sampleDb sampleOps initState).session)).Nodup :=
  ⟨by decide,
   (destroy_session_frees_all_once_leaves_first sampleDb sampleOps _ rfl (by decide)).1,
   (destroy_session_frees_all_once_leaves_first sampleDb sampleOps _ rfl
     (by decide)).2.1⟩

end LibESMTP
